import Mathlib

/-!
Verification development for the rollup-geth EIP-7706 vector fee market.

The Go sources are shallowly embedded: 3-element gas vectors
(`types.VectorGasLimit`, a `[]uint64` slice of length 3) become functions
`Fin 3 → ℕ` with explicit `% 2^64` where Go's `uint64` arithmetic wraps;
fee vectors (`types.VectorFeeBigint`, `[]*big.Int` of length 3, elements
individually nil-able) become `Fin 3 → Option ℤ`; fallible Go functions
return `Except`/`Option`.
-/

set_option maxHeartbeats 1000000
set_option maxRecDepth 100000

/-- The modulus of Go's `uint64` arithmetic. -/
def U64 : ℕ := 2 ^ 64

/-- `types.VectorGasLimit` (core/types/vector_fee.go): a 3-element vector of
`uint64` gas amounts, indices 0 = execution, 1 = blob, 2 = calldata. -/
abbrev VectorGasLimit := Fin 3 → ℕ

/-- `types.VectorFeeBigint` (core/types/vector_fee.go): a 3-element vector of
`*big.Int`; an element may be nil (`none`). -/
abbrev VectorFeeBigint := Fin 3 → Option ℤ

/-- `params.TxMinGasPrice` = 1 (src/unnamed/part_018). -/
def txMinGasPrice : ℤ := 1

/-- `params.BaseFeeUpdateFraction` = 8 (src/unnamed/part_018). -/
def baseFeeUpdateFraction : ℤ := 8

/-- `params.CalldataGasPerToken` = 4 (src/unnamed/part_018). -/
def calldataGasPerToken : ℕ := 4

/-- `params.CallDataGasLimitRatio` = 4 (src/unnamed/part_018). -/
def callDataGasLimitQuot : ℕ := 4

/-- `params.BlobTxBlobGasPerBlob` = 1 << 17 (params/protocol_params.go). -/
def blobTxBlobGasPerBlob : ℕ := 2 ^ 17

/-- Modelled from the spec: `params.MaxBlobGasPerBlock` is referenced by the
consensus rule but its definition is not under src/; the spec lists it among
the configuration constants. We use the upstream go-ethereum value
(6 blobs worth of blob gas). None of the theorems below depend on the
exact value. -/
def maxBlobGasPerBlock : ℕ := 6 * 2 ^ 17

/-- `params.LimitTargetRatios` = {2, 2, 4} (src/unnamed/part_018). -/
def limitTargetRatios : Fin 3 → ℕ := ![2, 2, 4]

/-- `VectorGasLimit.VectorAdd` (core/types/vector_fee.go): elementwise
addition; the Go comment notes it does not check for overflow, so each
component wraps modulo 2^64. -/
def vectorAddU64 (vec other : VectorGasLimit) : VectorGasLimit :=
  fun i => (vec i + other i) % U64

/-- `VectorGasLimit.VectorSubtractClampAtZero` (core/types/vector_fee.go):
elementwise subtraction clamped at zero (`if v <= other[i] then 0 else v - other[i]`). -/
def vectorSubClampU64 (vec other : VectorGasLimit) : VectorGasLimit :=
  fun i => if vec i ≤ other i then 0 else vec i - other i

/-- `VectorGasLimit.VectorAllEq` (core/types/vector_fee.go): all
corresponding elements equal. -/
def vectorAllEqU64 (vec other : VectorGasLimit) : Bool :=
  (List.finRange 3).all fun i => vec i == other i

/-- `VectorFeeBigint.ContainsNilElement` (core/types/vector_fee.go). -/
def containsNilElement (vec : VectorFeeBigint) : Bool :=
  (List.finRange 3).any fun i => (vec i).isNone

/-- `VectorFeeBigint.VectorAllEq` (core/types/vector_fee.go): a position
where both elements are nil compares equal; a position where exactly one is
nil compares unequal; otherwise numeric comparison. -/
def vectorAllEqFee (vec other : VectorFeeBigint) : Bool :=
  (List.finRange 3).all fun i =>
    match vec i, other i with
    | none, none => true
    | none, some _ => false
    | some _, none => false
    | some a, some b => a == b

/-- `VectorFeeBigint.VectorAllLessOrEqual` (core/types/vector_fee.go,
lines 80-95): if either vector contains any nil element the result is
false; otherwise elementwise ≤. -/
def vectorAllLessOrEqual (vec other : VectorFeeBigint) : Bool :=
  if containsNilElement vec || containsNilElement other then false
  else (List.finRange 3).all fun i => decide ((vec i).getD 0 ≤ (other i).getD 0)

/-- Error value for the strict (error-returning) vector operations
(`ElementNilError` in core/types/vector_fee.go). -/
inductive VecErr
  | elementNil
  deriving DecidableEq

/-- `VectorFeeBigint.VectorMul` (core/types/vector_fee.go): errors if either
vector contains a nil element, otherwise elementwise product. -/
def vectorMulFee (vec other : VectorFeeBigint) : Except VecErr VectorFeeBigint :=
  if containsNilElement vec || containsNilElement other then .error .elementNil
  else .ok fun i => some ((vec i).getD 0 * (other i).getD 0)

/-- `VectorFeeBigint.Sum` (core/types/vector_fee.go): errors if the vector
contains a nil element, otherwise the sum of the three elements. -/
def vectorSumFee (vec : VectorFeeBigint) : Except VecErr ℤ :=
  if containsNilElement vec then .error .elementNil
  else .ok ((vec 0).getD 0 + (vec 1).getD 0 + (vec 2).getD 0)

/-- `VectorFeeBigint.VecBitLenAllZero` (core/types/vector_fee.go): every
non-nil element has `big.Int` bit length 0, i.e. is zero; nil counts as
bit length 0. -/
def vecBitLenAllZero (vec : VectorFeeBigint) : Bool :=
  (List.finRange 3).all fun i =>
    match vec i with
    | none => true
    | some v => v == 0

/-- `VectorFeeBigint.VecBitLenAllLessEqThan256` (core/types/vector_fee.go):
every non-nil element has `big.Int` bit length ≤ 256; `big.Int.BitLen` is
the bit length of the absolute value, so this is `|v| < 2^256`. -/
def vecBitLenAllLessEqThan256 (vec : VectorFeeBigint) : Bool :=
  (List.finRange 3).all fun i =>
    match vec i with
    | none => true
    | some v => decide (v.natAbs < 2 ^ 256)

/-- `VectorGasLimit.ToVectorBigInt` (core/types/vector_fee.go). -/
def toVectorBigInt (vec : VectorGasLimit) : VectorFeeBigint :=
  fun i => some (vec i : ℤ)

/-- `getBlockTargets` (consensus/misc/eip7706/eip7706.go) parameterized by
the ratio table (the source reads the mutable global
`params.LimitTargetRatios`): `target[i] = limit[i] / ratios[i]`, with an
explicit guard producing 0 when `ratios[i] = 0`. -/
def getBlockTargetsWith (ratios : Fin 3 → ℕ) (parentGasLimits : VectorGasLimit) :
    VectorGasLimit :=
  fun i => if ratios i = 0 then 0 else parentGasLimits i / ratios i

/-- `getBlockTargets` at the default global ratio table `{2, 2, 4}`. -/
def getBlockTargets : VectorGasLimit → VectorGasLimit :=
  getBlockTargetsWith limitTargetRatios

/-- `CalcExecGas` (consensus/misc/eip7706/eip7706.go, lines 150-154):
`parentExecGas.VectorAdd(parentGasUsed)` followed by
`VectorSubtractClampAtZero(getBlockTargets(parentGasLimits))`. -/
def CalcExecGas (parentGasUsed parentExecGas parentGasLimits : VectorGasLimit) :
    VectorGasLimit :=
  vectorSubClampU64 (vectorAddU64 parentExecGas parentGasUsed)
    (getBlockTargets parentGasLimits)

/-- The spec-side formula for the next excess gas, written from the claim's
words with exact natural-number arithmetic:
`clamp_at_zero((parentExcess[i] + parentUsed[i]) - target[i])` with
`target[i] = parentLimits[i] / LimitTargetRatios[i]` (integer division,
0 when the ratio is 0 — which is what `Nat` division gives). -/
def specCalcExecGas (parentGasUsed parentExecGas parentGasLimits : VectorGasLimit) :
    VectorGasLimit :=
  fun i => (parentExecGas i + parentGasUsed i) - parentGasLimits i / limitTargetRatios i

/-- Go's `int64(x)` conversion of a `uint64` value, as used by
`big.NewInt(int64(execGas))`: wraps values ≥ 2^63 to negatives. -/
def toInt64 (x : ℕ) : ℤ := if x < 2 ^ 63 then (x : ℤ) else (x : ℤ) - (U64 : ℤ)

/-- The Taylor-series loop of `fakeExponential`
(consensus/misc/eip7706/eip7706.go): starting from `accum = factor * den`
and `i = 1`, repeatedly add `accum` to `output` and replace `accum` by
`accum * num / den / i` (Go `big.Int.Div` is Euclidean division, `ediv`)
while `accum > 0`. The Lean guard additionally requires `0 < den ∧ 0 < i`;
the source only ever calls the loop with `i` starting at 1 and, after the
zero-denominator guard in `CalcBaseFees`, with a positive denominator, so
on every reachable input both agree. -/
def fexpLoop (num den : ℤ) (output accum : ℤ) (i : ℕ) : ℤ :=
  if h : 0 < accum ∧ 0 < den ∧ 0 < i then
    fexpLoop num den (output + accum) (accum * num / den / i) (i + 1)
  else output
termination_by (num.toNat + 1 - i, accum.toNat)
decreasing_by
  simp_wf
  rcases Nat.lt_or_ge i (num.toNat + 1) with hi | hi
  · exact Prod.Lex.left _ _ (by omega)
  · have h1 : num.toNat + 1 - i = 0 := by omega
    have h2 : num.toNat - i = 0 := by omega
    rw [h1, h2]
    refine Prod.Lex.right _ ?_
    rcases h with ⟨haccum, hden, hi'⟩
    have hipos : (0 : ℤ) < (i : ℤ) := by exact_mod_cast hi'
    rcases le_or_lt num 0 with hnum | hnum
    · have hx : accum * num ≤ 0 := mul_nonpos_of_nonneg_of_nonpos (le_of_lt haccum) hnum
      have h3 : accum * num / den ≤ 0 := by
        calc accum * num / den ≤ (0 : ℤ) / den := Int.ediv_le_ediv hden hx
        _ = 0 := Int.zero_ediv den
      have h4 : accum * num / den / (i : ℤ) ≤ 0 := by
        calc accum * num / den / (i : ℤ)
            ≤ (0 : ℤ) / (i : ℤ) := Int.ediv_le_ediv hipos h3
        _ = 0 := Int.zero_ediv _
      have h5 : (accum * num / den / (i : ℤ)).toNat = 0 := by omega
      omega
    · -- num > 0; here i ≥ num + 1, so dividing by i strictly shrinks accum
      have hprod : 0 ≤ accum * num := mul_nonneg (le_of_lt haccum) (le_of_lt hnum)
      have hi2 : (num + 1 : ℤ) ≤ (i : ℤ) := by omega
      have hstep1 : accum * num / den ≤ accum * num := Int.ediv_le_self _ hprod
      have hstep2 : accum * num / den / (i : ℤ) ≤ accum * num / (i : ℤ) :=
        Int.ediv_le_ediv hipos hstep1
      have hnn3 : 0 ≤ accum * num / (i : ℤ) := Int.ediv_nonneg hprod (le_of_lt hipos)
      have hstep3 : accum * num / (i : ℤ) ≤ accum * num / (num + 1) := by
        refine Int.le_ediv_of_mul_le (by omega) ?_
        calc accum * num / (i : ℤ) * (num + 1)
            ≤ accum * num / (i : ℤ) * (i : ℤ) :=
              mul_le_mul_of_nonneg_left hi2 hnn3
        _ ≤ accum * num := Int.ediv_mul_le _ (ne_of_gt hipos)
      have hstep4 : accum * num / (num + 1) < accum := by
        rw [Int.ediv_lt_iff_lt_mul (by omega)]
        nlinarith
      have hlt : accum * num / den / (i : ℤ) < accum := by omega
      exact (Int.toNat_lt_toNat haccum).mpr hlt

/-- `fakeExponential` (consensus/misc/eip7706/eip7706.go): approximates
`factor * e^(num/den)` by the integer Taylor series. The final
`output.Div(output, denominator)` is a `big.Int` division that panics on a
zero divisor, modelled as `none`. -/
def fakeExponential (factor numerator denominator : ℤ) : Option ℤ :=
  if denominator = 0 then none
  else some (fexpLoop numerator denominator 0 (factor * denominator) 1 / denominator)

/-- One iteration of the `CalcBaseFees` loop body for a single dimension:
`target := big.NewInt(int64(targets[i])); target = target.Mul(target, 8)`;
if `target.Sign() == 0` the base fee is `minTxGasPrice`, otherwise
`fakeExponential(minTxGasPrice, big.NewInt(int64(execGas)), target)`. -/
def calcBaseFeeDim (execGas target : ℕ) : Option ℤ :=
  let den := toInt64 target * baseFeeUpdateFraction
  if den = 0 then some txMinGasPrice
  else fakeExponential txMinGasPrice (toInt64 execGas) den

/-- `CalcBaseFees` (consensus/misc/eip7706/eip7706_test.go appended
snapshot, lines 447-465 — the latest snapshot of
consensus/misc/eip7706/eip7706.go, which guards the zero denominator):
the per-dimension loop applied to the three components, assembled into a
fully-present base-fee vector; `none` models the `big.Int` division panic
(which the zero-denominator guard makes unreachable). -/
def CalcBaseFees (parentExecGas parentGasLimits : VectorGasLimit) :
    Option (Fin 3 → ℤ) :=
  match calcBaseFeeDim (parentExecGas 0) (getBlockTargets parentGasLimits 0),
        calcBaseFeeDim (parentExecGas 1) (getBlockTargets parentGasLimits 1),
        calcBaseFeeDim (parentExecGas 2) (getBlockTargets parentGasLimits 2) with
  | some a, some b, some c => some ![a, b, c]
  | _, _, _ => none

/-- The consensus-relevant view of `types.Header`: the fields read by
`VerifyEIP7706Header`. Go nil-able slices/pointers become `Option`; the
three gas vectors, when present, are the intended 3-element vectors. -/
structure CHeader where
  gasLimit : ℕ
  gasUsed : ℕ
  blobGasUsed : Option ℕ
  excessBlobGas : Option ℕ
  gasLimits : Option VectorGasLimit
  gasUsedVector : Option VectorGasLimit
  excessGas : Option VectorGasLimit
  baseFees : Option VectorFeeBigint

/-- The possible outcomes of `VerifyEIP7706Header`: success, each distinct
error return, or a Go runtime panic (`nilDeref`: dereferencing a nil
`BlobGasUsed`/`ExcessBlobGas` pointer of a legacy parent, or the
`big.Int` division panic). -/
inductive VerifyOutcome
  | ok
  | errMissingExcessGas
  | errMissingGasUsedVector
  | errMissingGasLimits
  | errBlobGasExceedsMax
  | errBlobGasNotMultiple
  | errCalldataNotMultiple
  | errInvalidExcessGas
  | errInvalidBaseFee
  | nilDeref
  deriving DecidableEq

/-- The parent-sanitization step of `VerifyEIP7706Header`
(consensus/misc/eip7706/eip7706.go lines 113-128): a vector-active parent
(all three vector fields non-nil) supplies its vectors directly; otherwise
legacy equivalents are synthesized from the scalar fields, dereferencing
the parent's `BlobGasUsed` and `ExcessBlobGas` pointers (nil there is a
runtime panic, modelled as `none`). Returned in the order
(gasUsed, excessGas, gasLimits). -/
def sanitizeParent (parent : CHeader) :
    Option (VectorGasLimit × VectorGasLimit × VectorGasLimit) :=
  match parent.gasUsedVector, parent.excessGas, parent.gasLimits with
  | some pUsed, some pExcess, some pLimits => some (pUsed, pExcess, pLimits)
  | _, _, _ =>
    match parent.blobGasUsed, parent.excessBlobGas with
    | some pBlobUsed, some pExcessBlob =>
      some (![parent.gasUsed, pBlobUsed, parent.gasUsed / callDataGasLimitQuot],
            ![0, pExcessBlob, 0],
            ![parent.gasLimit, maxBlobGasPerBlock,
              parent.gasLimit / callDataGasLimitQuot])
    | _, _ => none

/-- `VerifyEIP7706Header` (consensus/misc/eip7706/eip7706.go, lines 84-147):
presence checks on the child's three vector fields, blob- and
calldata-dimension bound checks on the child's `GasUsedVector`, parent
sanitization, the excess-gas recomputation check, and — only if the child
carries a non-nil `BaseFees` cache — the base-fee recomputation check. -/
def VerifyEIP7706Header (parent header : CHeader) : VerifyOutcome :=
  match header.excessGas with
  | none => .errMissingExcessGas
  | some hExcess =>
  match header.gasUsedVector with
  | none => .errMissingGasUsedVector
  | some hUsed =>
  match header.gasLimits with
  | none => .errMissingGasLimits
  | some _ =>
  if maxBlobGasPerBlock < hUsed 1 then .errBlobGasExceedsMax
  else if hUsed 1 % blobTxBlobGasPerBlob ≠ 0 then .errBlobGasNotMultiple
  else if hUsed 2 % calldataGasPerToken ≠ 0 then .errCalldataNotMultiple
  else
    match sanitizeParent parent with
    | none => .nilDeref
    | some (pUsed, pExcess, pLimits) =>
      if !(vectorAllEqU64 hExcess (CalcExecGas pUsed pExcess pLimits)) then
        .errInvalidExcessGas
      else
        match header.baseFees with
        | none => .ok
        | some bf =>
          match CalcBaseFees pExcess pLimits with
          | none => .nilDeref
          | some ebf =>
            if !(vectorAllEqFee bf (fun i => some (ebf i))) then .errInvalidBaseFee
            else .ok

/-- The vector-active parent of the spec's `VerifyEIP7706Header` example:
limits `{20M, 20M, 40M}`, used `{10M, 10M, 10M}`, excess `{0,0,0}`. -/
def c1Parent : CHeader :=
  { gasLimit := 0, gasUsed := 0, blobGasUsed := none, excessBlobGas := none,
    gasLimits := some ![20000000, 20000000, 40000000],
    gasUsedVector := some ![10000000, 10000000, 10000000],
    excessGas := some ![0, 0, 0], baseFees := none }

/-- A child of `c1Parent` whose `ExcessGas` matches the recomputation but
whose (optional) `BaseFees` cache is present and wrong. -/
def c1ChildBadBaseFees : CHeader :=
  { gasLimit := 0, gasUsed := 0, blobGasUsed := none, excessBlobGas := none,
    gasLimits := some ![20000000, 20000000, 40000000],
    gasUsedVector := some ![0, 0, 0],
    excessGas := some ![0, 0, 0],
    baseFees := some ![some 0, some 1, some 1] }

/-- A child of `c1Parent` claiming the correct excess `{0,0,0}` and carrying
no `BaseFees` cache. -/
def c1ChildGood : CHeader :=
  { gasLimit := 0, gasUsed := 0, blobGasUsed := none, excessBlobGas := none,
    gasLimits := some ![20000000, 20000000, 40000000],
    gasUsedVector := some ![0, 0, 0],
    excessGas := some ![0, 0, 0], baseFees := none }

/-- A child of `c1Parent` claiming the wrong excess `{1,0,0}`. -/
def c1ChildBadExcess : CHeader :=
  { gasLimit := 0, gasUsed := 0, blobGasUsed := none, excessBlobGas := none,
    gasLimits := some ![20000000, 20000000, 40000000],
    gasUsedVector := some ![0, 0, 0],
    excessGas := some ![1, 0, 0], baseFees := none }

/-- Tagged error kinds of the EIP-7706 transaction gas accounting
(core/state_transition_rollup.go): the four pre-check admission errors,
the funds/pool/overflow failures of buy, the nil-element arithmetic error,
and the `uint256.MustFromBig` panic at refund time. -/
inductive GasErrKind
  | feeCapVeryHigh
  | tipVeryHigh
  | tipAboveFeeCap
  | feeCapLessThanBaseFee
  | insufficientFunds
  | gasPoolExhausted
  | overflowU256
  | nilElement
  deriving DecidableEq

/-- The per-transaction fields of `Message` consumed by the EIP-7706 gas
accounting: the scalar execution gas limit, the three-dimension gas-limit
slice, the fee/tip cap vectors and the derived effective prices/tips, and
the transferred value. -/
structure GasMsg where
  gasLimit : ℕ
  gasLimits : VectorGasLimit
  gasFeeCaps : VectorFeeBigint
  gasTipCaps : VectorFeeBigint
  effectiveGasPrices : VectorFeeBigint
  effectiveGasTips : VectorFeeBigint
  value : ℤ

/-- The `StateTransition` fields read by the post-execution accounting:
the message and the scalar gas counters set by `buyGas` and consumed by
`gasUsed()`. -/
structure STState where
  msg : GasMsg
  initialGas : ℕ
  gasRemaining : ℕ

/-- `st.gasUsed()` = `st.initialGas - st.gasRemaining`. -/
def stGasUsed (st : STState) : ℕ := st.initialGas - st.gasRemaining

/-- `preCheckGasEIP7706` (core/state_transition_rollup.go, lines 525-547):
skip everything when the no-base-fee override is set and both cap vectors
are all-zero/absent; otherwise run the four checks in order and return the
first violation's tagged error. -/
def preCheckGasEIP7706 (noBaseFee : Bool) (msg : GasMsg)
    (baseFees : VectorFeeBigint) : Option GasErrKind :=
  if noBaseFee && vecBitLenAllZero msg.gasFeeCaps && vecBitLenAllZero msg.gasTipCaps then
    none
  else if !(vecBitLenAllLessEqThan256 msg.gasFeeCaps) then some .feeCapVeryHigh
  else if !(vecBitLenAllLessEqThan256 msg.gasTipCaps) then some .tipVeryHigh
  else if !(vectorAllLessOrEqual msg.gasTipCaps msg.gasFeeCaps) then some .tipAboveFeeCap
  else if !(vectorAllLessOrEqual baseFees msg.gasFeeCaps) then some .feeCapLessThanBaseFee
  else none

/-- The claim's first-violated-check reading of the pre-check, stated with
explicit existentials for the bit-length guards (`big.Int` bit length
greater than 256 means absolute value at least 2^256). -/
def specPreCheckViolation (msg : GasMsg) (baseFees : VectorFeeBigint) :
    Option GasErrKind :=
  if ∃ i x, msg.gasFeeCaps i = some x ∧ 2 ^ 256 ≤ x.natAbs then some .feeCapVeryHigh
  else if ∃ i x, msg.gasTipCaps i = some x ∧ 2 ^ 256 ≤ x.natAbs then some .tipVeryHigh
  else if ¬ vectorAllLessOrEqual msg.gasTipCaps msg.gasFeeCaps = true then
    some .tipAboveFeeCap
  else if ¬ vectorAllLessOrEqual baseFees msg.gasFeeCaps = true then
    some .feeCapLessThanBaseFee
  else none

/-- `buyGasEIP7706` (core/state_transition_rollup.go, lines 412-476),
reduced to its accounting effect: runs the balance/overflow/gas-pool checks
and returns the amount debited from the sender
(`Σ_i effectivePrice[i] * gasLimit[i]`), the remaining block gas pool, and
the `StateTransition` gas counters it sets
(`gasRemaining = initialGas = msg.GasLimit`). The `uint256.FromBig`
overflow flag is `big.Int.BitLen() > 256`, i.e. absolute value ≥ 2^256 (the
L1-cost hook is absent: `L1CostFunc` is nil on this path). -/
def buyGasEIP7706 (msg : GasMsg) (balance gasPool : ℕ) :
    Except GasErrKind (ℤ × ℕ × STState) := do
  let gasLimits := toVectorBigInt msg.gasLimits
  let maxGasFees ← (vectorMulFee gasLimits msg.gasFeeCaps).mapError
    fun _ => GasErrKind.nilElement
  let maxSum ← (vectorSumFee maxGasFees).mapError fun _ => GasErrKind.nilElement
  let balanceCheck := maxSum + msg.value
  if 2 ^ 256 ≤ balanceCheck.natAbs then throw .insufficientFunds
  else if (balance : ℤ) < balanceCheck then throw .insufficientFunds
  else if gasPool < msg.gasLimit then throw .gasPoolExhausted
  else do
    let totalVec ← (vectorMulFee msg.effectiveGasPrices gasLimits).mapError
      fun _ => GasErrKind.nilElement
    let total ← (vectorSumFee totalVec).mapError fun _ => GasErrKind.nilElement
    if 2 ^ 256 ≤ total.natAbs then throw .overflowU256
    else pure (total, gasPool - msg.gasLimit, ⟨msg, msg.gasLimit, msg.gasLimit⟩)

/-- `vectorGasUsed` (core/state_transition_rollup.go, lines 638-647):
`gasUsed := st.msg.GasLimits; gasUsed[ExecutionGasIndex] = st.gasUsed()`.
`VectorGasLimit` is a Go slice, so `gasUsed` aliases `st.msg.GasLimits`
and the write to index 0 is visible through the message; the model returns
the post-write state together with the (identical) written vector. -/
def vectorGasUsed (st : STState) : STState × VectorGasLimit :=
  let gasUsed := Function.update st.msg.gasLimits 0 (stGasUsed st)
  ({ st with msg := { st.msg with gasLimits := gasUsed } }, gasUsed)

/-- `vectorGasRemaining` (core/state_transition_rollup.go, lines 649-657):
`st.msg.GasLimits.VectorSubtractClampAtZero(st.vectorGasUsed())`. The
receiver slice header still points at the array that `vectorGasUsed` has
just written, so the subtraction reads the mutated limits. -/
def vectorGasRemaining (st : STState) : STState × VectorGasLimit :=
  let p := vectorGasUsed st
  (p.1, vectorSubClampU64 p.1.msg.gasLimits p.2)

/-- `refundGasToAddressEIP7706` (core/state_transition_rollup.go, lines
557-572), reduced to its accounting effect: the amount credited back to the
sender (`Σ_i remaining[i] * effectivePrice[i]`), alongside the state left
behind by the slice write inside `vectorGasUsed`; `uint256.MustFromBig`
panics outside `[0, 2^256)`, modelled as the overflow error. -/
def refundGasToAddressEIP7706 (st : STState) : Except GasErrKind (STState × ℤ) := do
  let p := vectorGasRemaining st
  let vec ← (vectorMulFee (toVectorBigInt p.2) p.1.msg.effectiveGasPrices).mapError
    fun _ => GasErrKind.nilElement
  let s ← (vectorSumFee vec).mapError fun _ => GasErrKind.nilElement
  if s < 0 ∨ 2 ^ 256 ≤ s then throw .overflowU256
  else pure (p.1, s)

/-- `payTheTipEIP7706` (core/state_transition_rollup.go, lines 604-636),
reduced to its accounting effect: the amount credited to the fee recipient
(`Σ_i effectiveTip[i] * used[i]`), alongside the state left behind by the
slice write inside `vectorGasUsed`. -/
def payTheTipEIP7706 (noBaseFee : Bool) (st : STState) :
    Except GasErrKind (STState × ℤ) :=
  if noBaseFee && vecBitLenAllZero st.msg.gasTipCaps &&
      vecBitLenAllZero st.msg.gasFeeCaps then
    pure (st, 0)
  else do
    let p := vectorGasUsed st
    let vec ← (vectorMulFee p.1.msg.effectiveGasTips (toVectorBigInt p.2)).mapError
      fun _ => GasErrKind.nilElement
    let s ← (vectorSumFee vec).mapError fun _ => GasErrKind.nilElement
    if 2 ^ 256 ≤ s.natAbs then throw .overflowU256
    else pure (p.1, s)

/-- A transaction using only its execution dimension: execution gas limit
100 at effective price 2, blob and calldata limits 0. -/
def c7Msg : GasMsg :=
  { gasLimit := 100, gasLimits := ![100, 0, 0],
    gasFeeCaps := ![some 2, some 0, some 0],
    gasTipCaps := ![some 0, some 0, some 0],
    effectiveGasPrices := ![some 2, some 0, some 0],
    effectiveGasTips := ![some 1, some 0, some 0],
    value := 0 }

/-- The same execution-only transaction shape, for the frame-effect claim. -/
def c10Msg : GasMsg :=
  { gasLimit := 100, gasLimits := ![100, 0, 0],
    gasFeeCaps := ![some 2, some 0, some 0],
    gasTipCaps := ![some 0, some 0, some 0],
    effectiveGasPrices := ![some 2, some 0, some 0],
    effectiveGasTips := ![some 1, some 0, some 0],
    value := 0 }

/-- The post-execution state for `c10Msg`: 100 gas bought, 40 remaining
(60 consumed). -/
def c10St : STState := ⟨c10Msg, 100, 40⟩

/-- `msg.GasLimits` as observed after running refund and then pay-tip on
`c10St` (the order fixed by the state-transition pipeline). -/
def c10LimitsAfter : Option VectorGasLimit :=
  (refundGasToAddressEIP7706 c10St).toOption.bind fun r =>
    (payTheTipEIP7706 false r.1).toOption.map fun q => q.1.msg.gasLimits


/-- An RLP item as presented by the `rlp.EncoderBuffer`/`rlp.Stream`
interface: the header codec reads and writes a sequence of items inside one
outer list. `intStr n` stands for the canonical minimal big-endian string
of the non-negative integer `n` — the form produced by `WriteUint64` and
`WriteBigInt`; `rawStr` is a byte string written by `WriteBytes` (hashes,
bloom, extra-data, and the `0x80` empty marker as `rawStr []`); `list` is a
nested list. The split of the single RLP string kind by provenance keeps
the decoder's canonicality checks executable; items denote the same wire
bytes whenever their byte images coincide. -/
inductive RLPItem
  | intStr (n : ℕ)
  | rawStr (bytes : List ℕ)
  | list (items : List RLPItem)

/-- The full `types.Header` as the codec (src/unnamed/part_014) sees it.
Hashes and fixed-width fields are byte lists; `*big.Int` fields are
`Option ℤ`; the three gas vectors are Go slices (`[]` = nil); `BaseFees`
is carried by the struct but never encoded. -/
structure RLPHeader where
  parentHash : List ℕ
  uncleHash : List ℕ
  coinbase : List ℕ
  root : List ℕ
  txHash : List ℕ
  receiptHash : List ℕ
  bloom : List ℕ
  difficulty : Option ℤ
  number : Option ℤ
  gasLimit : ℕ
  gasUsed : ℕ
  time : ℕ
  extra : List ℕ
  mixDigest : List ℕ
  nonce : List ℕ
  baseFee : Option ℤ
  withdrawalsHash : Option (List ℕ)
  blobGasUsed : Option ℕ
  excessBlobGas : Option ℕ
  parentBeaconRoot : Option (List ℕ)
  requestsHash : Option (List ℕ)
  gasLimits : List ℕ
  gasUsedVector : List ℕ
  excessGas : List ℕ
  baseFees : Option (List (Option ℤ))
  deriving DecidableEq

/-- Errors of `EncodeRLP`: `rlp.ErrNegativeBigInt`. -/
inductive EncErr
  | negativeBigInt
  deriving DecidableEq

/-- Decode-side stream errors: `rlp.EOL` (end of the current list), and
every other malformed-input error collapsed into one value. -/
inductive DecErr
  | eol
  | malformed
  deriving DecidableEq

/-- `rlp.EmptyString`, the canonical empty-string marker. -/
def emptyItem : RLPItem := .rawStr []

/-- `encodeBigIntOrEmpty` (part_014): nil writes the empty marker, a
negative value is `rlp.ErrNegativeBigInt`, otherwise the canonical integer
string. -/
def encodeBigIntOrEmpty : Option ℤ → Except EncErr RLPItem
  | none => .ok emptyItem
  | some v => if v < 0 then .error .negativeBigInt else .ok (.intStr v.toNat)

/-- `encodeHashOrEmpty` (part_014). -/
def encodeHashOrEmpty : Option (List ℕ) → RLPItem
  | none => emptyItem
  | some h => .rawStr h

/-- `encodeUint64PtrOrEmpty` (part_014). -/
def encodeUint64PtrOrEmpty : Option ℕ → RLPItem
  | none => emptyItem
  | some v => .intStr v

/-- `encodeUint64Vector` (part_014): a nested list of canonical uint64
strings. -/
def encodeUint64Vector (v : List ℕ) : RLPItem := .list (v.map .intStr)

/-- The telescoping optional suffix written by `encodePreEIP7706`
(part_014 lines 58-100): each optional field is emitted (its value, or the
empty marker when nil) exactly when it or any later-positioned optional
field is present. -/
def encodePreEIP7706Tail (h : RLPHeader) : Except EncErr (List RLPItem) := do
  let hasBaseFee := h.baseFee.isSome
  let hasWithdrawals := h.withdrawalsHash.isSome
  let hasBlobGas := h.blobGasUsed.isSome
  let hasExcessBlob := h.excessBlobGas.isSome
  let hasBeaconRoot := h.parentBeaconRoot.isSome
  let hasRequests := h.requestsHash.isSome
  let t1 ← if hasBaseFee || hasWithdrawals || hasBlobGas || hasExcessBlob ||
      hasBeaconRoot || hasRequests then do
      let x ← encodeBigIntOrEmpty h.baseFee
      pure [x]
    else pure []
  let t2 := if hasWithdrawals || hasBlobGas || hasExcessBlob || hasBeaconRoot ||
      hasRequests then [encodeHashOrEmpty h.withdrawalsHash] else []
  let t3 := if hasBlobGas || hasExcessBlob || hasBeaconRoot || hasRequests then
      [encodeUint64PtrOrEmpty h.blobGasUsed] else []
  let t4 := if hasExcessBlob || hasBeaconRoot || hasRequests then
      [encodeUint64PtrOrEmpty h.excessBlobGas] else []
  let t5 := if hasBeaconRoot || hasRequests then
      [encodeHashOrEmpty h.parentBeaconRoot] else []
  let t6 := if hasRequests then [encodeHashOrEmpty h.requestsHash] else []
  pure (t1 ++ t2 ++ t3 ++ t4 ++ t5 ++ t6)

/-- The vector-layout trailing items written by `encodeEIP7706`
(part_014 lines 102-114). -/
def encodeEIP7706Tail (h : RLPHeader) : List RLPItem :=
  [encodeHashOrEmpty h.withdrawalsHash, encodeHashOrEmpty h.parentBeaconRoot,
   encodeHashOrEmpty h.requestsHash,
   encodeUint64Vector h.gasLimits, encodeUint64Vector h.gasUsedVector,
   encodeUint64Vector h.excessGas]

/-- `Header.EncodeRLP` (part_014 lines 17-56): the fixed prefix, then —
only for a non-vector-active header — the legacy `GasLimit`/`GasUsed`
scalars, then `Time`, `Extra`, `MixDigest`, `Nonce`, then the
layout-specific tail. A header is vector-active iff all three gas vectors
have positive length. -/
def EncodeRLP (h : RLPHeader) : Except EncErr RLPItem := do
  let diffItem ← encodeBigIntOrEmpty h.difficulty
  let numItem ← encodeBigIntOrEmpty h.number
  let isEIP7706 := decide (0 < h.gasLimits.length) &&
    decide (0 < h.gasUsedVector.length) && decide (0 < h.excessGas.length)
  let fixedPart := [RLPItem.rawStr h.parentHash, .rawStr h.uncleHash,
    .rawStr h.coinbase, .rawStr h.root, .rawStr h.txHash, .rawStr h.receiptHash,
    .rawStr h.bloom, diffItem, numItem]
  let midPart := [RLPItem.intStr h.time, .rawStr h.extra, .rawStr h.mixDigest,
    .rawStr h.nonce]
  if isEIP7706 then
    pure (.list (fixedPart ++ midPart ++ encodeEIP7706Tail h))
  else do
    let tail ← encodePreEIP7706Tail h
    pure (.list (fixedPart ++ [RLPItem.intStr h.gasLimit, .intStr h.gasUsed] ++
      midPart ++ tail))

/-- Minimal little-endian byte expansion with explicit fuel (64 bytes is
exact for every value below 2^512; every integer item this codec decodes is
far smaller). -/
def leBytesAux : ℕ → ℕ → List ℕ
  | _, 0 => []
  | 0, _ => []
  | fuel + 1, n => n % 256 :: leBytesAux fuel (n / 256)

/-- The canonical minimal big-endian byte string of `n` (the byte image of
`intStr n`). -/
def bytesOfInt (n : ℕ) : List ℕ := (leBytesAux 64 n).reverse

/-- Big-endian byte-string value. -/
def beNat (s : List ℕ) : ℕ := s.foldl (fun acc b => acc * 256 + b) 0

/-- Outcome of `s.Decode(&someUint64)`: success consumes the item; a
failure either leaves the stream where it was (`failKeep`: end of list, a
string longer than 8 bytes rejected by the pre-read size check, or a list
where a string was expected) or — `failSkip` — advances past the item: for
a 2..8-byte string with a leading zero byte, `readUint` has already
consumed the bytes when it reports the canonicality error. -/
inductive U64Read
  | ok (v : ℕ) (rest : List RLPItem)
  | failKeep
  | failSkip (rest : List RLPItem)

/-- A `uint64` read from the stream (geth `Stream.uint(64)` semantics on
canonically-encoded input). -/
def takeU64 : List RLPItem → U64Read
  | [] => .failKeep
  | .list _ :: _ => .failKeep
  | .intStr n :: rest => if n < U64 then .ok n rest else .failKeep
  | .rawStr s :: rest =>
    if 8 < s.length then .failKeep
    else if s.length ≤ 1 then .ok (beNat s) rest
    else if s.headD 0 = 0 then .failSkip rest
    else .ok (beNat s) rest

/-- A required `uint64` read: any failure aborts decoding. -/
def takeU64Req (items : List RLPItem) : Except DecErr (ℕ × List RLPItem) :=
  match takeU64 items with
  | .ok v rest => .ok (v, rest)
  | _ => .error .malformed

/-- A `uint64` read into a `*uint64` field, with `rlp.EOL` reported
distinctly for the telescoping decoder. -/
def takeU64Ptr : List RLPItem → Except DecErr (ℕ × List RLPItem)
  | [] => .error .eol
  | items =>
    match takeU64 items with
    | .ok v rest => .ok (v, rest)
    | _ => .error .malformed

/-- An exact-size byte-array read (`common.Hash` = 32, `common.Address` =
20, `Bloom` = 256, `BlockNonce` = 8): the string must have exactly `k`
bytes. -/
def takeFixed (k : ℕ) : List RLPItem → Except DecErr (List ℕ × List RLPItem)
  | [] => .error .eol
  | .list _ :: _ => .error .malformed
  | .intStr n :: rest =>
    if (bytesOfInt n).length = k then .ok (bytesOfInt n, rest) else .error .malformed
  | .rawStr s :: rest =>
    if s.length = k then .ok (s, rest) else .error .malformed

/-- A `[]byte` read (`Extra`). -/
def takeBytesAny : List RLPItem → Except DecErr (List ℕ × List RLPItem)
  | [] => .error .eol
  | .list _ :: _ => .error .malformed
  | .intStr n :: rest => .ok (bytesOfInt n, rest)
  | .rawStr s :: rest => .ok (s, rest)

/-- A `*big.Int` read: any canonical (no leading zero) string; the empty
string is 0. -/
def takeBigInt : List RLPItem → Except DecErr (ℕ × List RLPItem)
  | [] => .error .eol
  | .list _ :: _ => .error .malformed
  | .intStr n :: rest => .ok (n, rest)
  | .rawStr s :: rest =>
    if s.headD 1 = 0 then .error .malformed
    else .ok (beNat s, rest)

/-- One element of a `[]uint64` decode. -/
def u64Elem : RLPItem → Option ℕ
  | .intStr n => if n < U64 then some n else none
  | .rawStr s =>
    if 8 < s.length then none
    else if s.length ≤ 1 then some (beNat s)
    else if s.headD 0 = 0 then none
    else some (beNat s)
  | .list _ => none

/-- All elements of a `[]uint64` decode. -/
def decodeU64Elems : List RLPItem → Option (List ℕ)
  | [] => some []
  | x :: xs => do
    let v ← u64Elem x
    let rest ← decodeU64Elems xs
    pure (v :: rest)

/-- A `[]uint64` read: the item must be a list of canonical uint64
strings. -/
def takeU64Vector : List RLPItem → Except DecErr (List ℕ × List RLPItem)
  | [] => .error .eol
  | .list xs :: rest =>
    match decodeU64Elems xs with
    | some v => .ok (v, rest)
    | none => .error .malformed
  | _ :: _ => .error .malformed

/-- `decodePreEIP7706` (part_014 lines 247-275): the telescoping optional
suffix; per `handleErr`, `rlp.EOL` at any step ends decoding successfully
with the fields read so far, any other error aborts. -/
def decodePreEIP7706 (h : RLPHeader) (items : List RLPItem) : Except DecErr RLPHeader :=
  match takeBigInt items with
  | .error .eol => .ok h
  | .error e => .error e
  | .ok (bf, r1) =>
    let h1 := { h with baseFee := some (bf : ℤ) }
    match takeFixed 32 r1 with
    | .error .eol => .ok h1
    | .error e => .error e
    | .ok (wh, r2) =>
      let h2 := { h1 with withdrawalsHash := some wh }
      match takeU64Ptr r2 with
      | .error .eol => .ok h2
      | .error e => .error e
      | .ok (bg, r3) =>
        let h3 := { h2 with blobGasUsed := some bg }
        match takeU64Ptr r3 with
        | .error .eol => .ok h3
        | .error e => .error e
        | .ok (eb, r4) =>
          let h4 := { h3 with excessBlobGas := some eb }
          match takeFixed 32 r4 with
          | .error .eol => .ok h4
          | .error e => .error e
          | .ok (pb, r5) =>
            let h5 := { h4 with parentBeaconRoot := some pb }
            match takeFixed 32 r5 with
            | .error .eol => .ok h5
            | .error e => .error e
            | .ok (rq, _) => .ok { h5 with requestsHash := some rq }

/-- `decodeEIP7706` (part_014 lines 277-302): the vector-layout tail, with
the same `handleErr` treatment of `rlp.EOL`. -/
def decodeEIP7706 (h : RLPHeader) (items : List RLPItem) : Except DecErr RLPHeader :=
  match takeFixed 32 items with
  | .error .eol => .ok h
  | .error e => .error e
  | .ok (wh, r1) =>
    let h1 := { h with withdrawalsHash := some wh }
    match takeFixed 32 r1 with
    | .error .eol => .ok h1
    | .error e => .error e
    | .ok (pb, r2) =>
      let h2 := { h1 with parentBeaconRoot := some pb }
      match takeFixed 32 r2 with
      | .error .eol => .ok h2
      | .error e => .error e
      | .ok (rq, r3) =>
        let h3 := { h2 with requestsHash := some rq }
        match takeU64Vector r3 with
        | .error .eol => .ok h3
        | .error e => .error e
        | .ok (gl, r4) =>
          let h4 := { h3 with gasLimits := gl }
          match takeU64Vector r4 with
          | .error .eol => .ok h4
          | .error e => .error e
          | .ok (gu, r5) =>
            let h5 := { h4 with gasUsedVector := gu }
            match takeU64Vector r5 with
            | .error .eol => .ok h5
            | .error e => .error e
            | .ok (eg, _) => .ok { h5 with excessGas := eg }

/-- The all-defaults header a fresh decode writes into. -/
def emptyRLPHeader : RLPHeader :=
  { parentHash := [], uncleHash := [], coinbase := [], root := [], txHash := [],
    receiptHash := [], bloom := [], difficulty := none, number := none,
    gasLimit := 0, gasUsed := 0, time := 0, extra := [], mixDigest := [],
    nonce := [], baseFee := none, withdrawalsHash := none, blobGasUsed := none,
    excessBlobGas := none, parentBeaconRoot := none, requestsHash := none,
    gasLimits := [], gasUsedVector := [], excessGas := [], baseFees := none }

/-- `Header.DecodeRLP` (part_014 lines 153-245): the fixed prefix, then the
trial-decode disambiguation — after one uint64 read, a second uint64 read
is attempted; success means the legacy layout (the two values are
`GasLimit` and `GasUsed` and a third read yields `Time`), failure means the
vector layout (the single value was `Time`), with the stream position after
the failed trial given by `takeU64`'s consumption behaviour. -/
def DecodeRLP (item : RLPItem) : Except DecErr RLPHeader := do
  match item with
  | .intStr _ => throw .malformed
  | .rawStr _ => throw .malformed
  | .list items =>
    let (parentHash, r1) ← takeFixed 32 items
    let (uncleHash, r2) ← takeFixed 32 r1
    let (coinbase, r3) ← takeFixed 20 r2
    let (root, r4) ← takeFixed 32 r3
    let (txHash, r5) ← takeFixed 32 r4
    let (receiptHash, r6) ← takeFixed 32 r5
    let (bloom, r7) ← takeFixed 256 r6
    let (difficulty, r8) ← takeBigInt r7
    let (number, r9) ← takeBigInt r8
    let (v1, r10) ← takeU64Req r9
    let base := { emptyRLPHeader with
      parentHash := parentHash, uncleHash := uncleHash, coinbase := coinbase,
      root := root, txHash := txHash, receiptHash := receiptHash, bloom := bloom,
      difficulty := some (difficulty : ℤ), number := some (number : ℤ) }
    match takeU64 r10 with
    | .ok gasUsed rA =>
      let (time, rB) ← takeU64Req rA
      let (extra, rC) ← takeBytesAny rB
      let (mixDigest, rD) ← takeFixed 32 rC
      let (nonce, rE) ← takeFixed 8 rD
      decodePreEIP7706 { base with
        gasLimit := v1, gasUsed := gasUsed, time := time, extra := extra,
        mixDigest := mixDigest, nonce := nonce } rE
    | .failKeep =>
      let (extra, rC) ← takeBytesAny r10
      let (mixDigest, rD) ← takeFixed 32 rC
      let (nonce, rE) ← takeFixed 8 rD
      decodeEIP7706 { base with
        time := v1, extra := extra, mixDigest := mixDigest, nonce := nonce } rE
    | .failSkip rA =>
      let (extra, rC) ← takeBytesAny rA
      let (mixDigest, rD) ← takeFixed 32 rC
      let (nonce, rE) ← takeFixed 8 rD
      decodeEIP7706 { base with
        time := v1, extra := extra, mixDigest := mixDigest, nonce := nonce } rE

/-- Encode then decode, the operation the round-trip claims quantify
over. -/
def roundTripRLP (h : RLPHeader) : Option RLPHeader :=
  match EncodeRLP h with
  | .error _ => none
  | .ok item =>
    match DecodeRLP item with
    | .error _ => none
    | .ok h2 => some h2

/-- Well-formedness of a vector-active header for the round-trip theorem:
fixed-width fields have their Go widths, `Difficulty`/`Number` are present
and non-negative, `Time` fits `uint64`, the three gas vectors are non-empty
with `uint64` elements, the three optional hashes are present 32-byte
hashes, the `Extra` data is longer than 8 bytes (so the trial uint64 read
fails cleanly), and the non-encoded `BaseFees` cache is nil. -/
def WFVectorHeader (h : RLPHeader) : Prop :=
  h.parentHash.length = 32 ∧ h.uncleHash.length = 32 ∧ h.coinbase.length = 20 ∧
  h.root.length = 32 ∧ h.txHash.length = 32 ∧ h.receiptHash.length = 32 ∧
  h.bloom.length = 256 ∧ h.mixDigest.length = 32 ∧ h.nonce.length = 8 ∧
  h.difficulty.isSome = true ∧ 0 ≤ h.difficulty.getD 0 ∧
  h.number.isSome = true ∧ 0 ≤ h.number.getD 0 ∧
  h.time < U64 ∧ 8 < h.extra.length ∧
  0 < h.gasLimits.length ∧ (∀ x ∈ h.gasLimits, x < U64) ∧
  0 < h.gasUsedVector.length ∧ (∀ x ∈ h.gasUsedVector, x < U64) ∧
  0 < h.excessGas.length ∧ (∀ x ∈ h.excessGas, x < U64) ∧
  h.withdrawalsHash.isSome = true ∧ (h.withdrawalsHash.getD []).length = 32 ∧
  h.parentBeaconRoot.isSome = true ∧ (h.parentBeaconRoot.getD []).length = 32 ∧
  h.requestsHash.isSome = true ∧ (h.requestsHash.getD []).length = 32 ∧
  h.baseFee = none ∧ h.blobGasUsed = none ∧ h.excessBlobGas = none ∧
  h.baseFees = none

/-- Well-formedness of a legacy header for the round-trip theorem: fixed
widths, present non-negative `Difficulty`/`Number`, `uint64`-ranged
scalars, nil gas vectors and `BaseFees`, and in-range values for whichever
optional suffix fields are present. -/
def WFLegacyHeader (h : RLPHeader) : Prop :=
  h.parentHash.length = 32 ∧ h.uncleHash.length = 32 ∧ h.coinbase.length = 20 ∧
  h.root.length = 32 ∧ h.txHash.length = 32 ∧ h.receiptHash.length = 32 ∧
  h.bloom.length = 256 ∧ h.mixDigest.length = 32 ∧ h.nonce.length = 8 ∧
  h.difficulty.isSome = true ∧ 0 ≤ h.difficulty.getD 0 ∧
  h.number.isSome = true ∧ 0 ≤ h.number.getD 0 ∧
  h.gasLimit < U64 ∧ h.gasUsed < U64 ∧ h.time < U64 ∧
  h.gasLimits = [] ∧ h.gasUsedVector = [] ∧ h.excessGas = [] ∧ h.baseFees = none ∧
  0 ≤ h.baseFee.getD 0 ∧
  (h.withdrawalsHash.isSome = true → (h.withdrawalsHash.getD []).length = 32) ∧
  h.blobGasUsed.getD 0 < U64 ∧ h.excessBlobGas.getD 0 < U64 ∧
  (h.parentBeaconRoot.isSome = true → (h.parentBeaconRoot.getD []).length = 32) ∧
  (h.requestsHash.isSome = true → (h.requestsHash.getD []).length = 32)

/-- The telescoping suffix is prefix-contiguous: every optional field that
precedes a present field is itself present. -/
def ContiguousSuffix (h : RLPHeader) : Prop :=
  (h.withdrawalsHash.isSome = true → h.baseFee.isSome = true) ∧
  (h.blobGasUsed.isSome = true → h.withdrawalsHash.isSome = true) ∧
  (h.excessBlobGas.isSome = true → h.blobGasUsed.isSome = true) ∧
  (h.parentBeaconRoot.isSome = true → h.excessBlobGas.isSome = true) ∧
  (h.requestsHash.isSome = true → h.parentBeaconRoot.isSome = true)


/-- The concrete vector-active header used by the C2 witness: all three gas
vectors nonempty, `Extra` 9 bytes long, the three optional hashes present,
legacy optional scalars and `BaseFees` nil. -/
def hVecConc : RLPHeader :=
  { parentHash := List.replicate 32 1, uncleHash := List.replicate 32 2,
    coinbase := List.replicate 20 3, root := List.replicate 32 4,
    txHash := List.replicate 32 5, receiptHash := List.replicate 32 6,
    bloom := List.replicate 256 0, difficulty := some 0, number := some 7,
    gasLimit := 0, gasUsed := 0, time := 12, extra := List.replicate 9 8,
    mixDigest := List.replicate 32 9, nonce := List.replicate 8 10,
    baseFee := none, withdrawalsHash := some (List.replicate 32 11),
    blobGasUsed := none, excessBlobGas := none,
    parentBeaconRoot := some (List.replicate 32 12),
    requestsHash := some (List.replicate 32 13),
    gasLimits := [100, 200, 300], gasUsedVector := [10, 20, 30],
    excessGas := [1, 2, 3], baseFees := none }

/-- The C2 counterexample header: the same vector-active header with an
empty `Extra`, short enough for the decoder's trial uint64 read to succeed. -/
def hVecBadExtra : RLPHeader := { hVecConc with extra := [] }

/-- The concrete legacy header used by the C3 witness: no optional suffix
field populated, gas vectors and `BaseFees` nil. -/
def hLegConc : RLPHeader :=
  { parentHash := List.replicate 32 1, uncleHash := List.replicate 32 2,
    coinbase := List.replicate 20 3, root := List.replicate 32 4,
    txHash := List.replicate 32 5, receiptHash := List.replicate 32 6,
    bloom := List.replicate 256 0, difficulty := some 0, number := some 7,
    gasLimit := 5000, gasUsed := 21000, time := 12, extra := [],
    mixDigest := List.replicate 32 9, nonce := List.replicate 8 10,
    baseFee := none, withdrawalsHash := none, blobGasUsed := none,
    excessBlobGas := none, parentBeaconRoot := none, requestsHash := none,
    gasLimits := [], gasUsedVector := [], excessGas := [], baseFees := none }

/-- The C3 counterexample header: `WithdrawalsHash` populated while
`BaseFee` is nil — a gap in the telescoping optional suffix. -/
def hLegGap : RLPHeader :=
  { hLegConc with withdrawalsHash := some (List.replicate 32 11) }

/-! ## Theorems -/

/-- `getBlockTargetsWith` is plain division in every case: when the ratio is
zero the explicit source guard returns 0, which coincides with `Nat`
division by zero. -/
theorem getBlockTargetsWith_eq_div (ratios : Fin 3 → ℕ) (l : VectorGasLimit)
    (i : Fin 3) : getBlockTargetsWith ratios l i = l i / ratios i := by
  unfold getBlockTargetsWith
  split
  · rename_i hz
    rw [hz, Nat.div_zero]
  · rfl

/-- The per-dimension base-fee computation never fails: either the
zero-denominator guard fires, or `fakeExponential` is called with a nonzero
denominator and returns a value. -/
theorem calcBaseFeeDim_isSome (g t : ℕ) : ∃ v, calcBaseFeeDim g t = some v := by
  by_cases hden : toInt64 t * baseFeeUpdateFraction = 0
  · exact ⟨txMinGasPrice, by unfold calcBaseFeeDim; simp [hden]⟩
  · exact ⟨fexpLoop (toInt64 g) (toInt64 t * baseFeeUpdateFraction) 0
      (txMinGasPrice * (toInt64 t * baseFeeUpdateFraction)) 1 /
      (toInt64 t * baseFeeUpdateFraction),
      by unfold calcBaseFeeDim fakeExponential; simp [hden]⟩

/-- With a zero target the guard fires and the dimension's base fee is the
minimum price. -/
theorem calcBaseFeeDim_zero (g : ℕ) : calcBaseFeeDim g 0 = some txMinGasPrice := by
  unfold calcBaseFeeDim toInt64
  norm_num

/-- C4 (corrected): for vectors without `uint64` overflow in
`parentExcess[i] + parentUsed[i]`, `CalcExecGas` computes, in every
dimension, `clamp_at_zero((parentExcess[i] + parentUsed[i]) - target[i])`
with `target[i] = parentLimits[i] / LimitTargetRatios[i]` (integer
division, 0 when the ratio is 0); the result is a total vector of
natural numbers (never negative or absent). The claim's unrestricted
version fails because `VectorAdd` wraps modulo 2^64 (see the
counterexample). -/
theorem CalcExecGas_formula (u e l : VectorGasLimit)
    (hov : ∀ i, e i + u i < U64) (i : Fin 3) :
    CalcExecGas u e l i = specCalcExecGas u e l i := by
  have ht : getBlockTargets l i = l i / limitTargetRatios i :=
    getBlockTargetsWith_eq_div limitTargetRatios l i
  unfold CalcExecGas vectorSubClampU64 vectorAddU64 specCalcExecGas
  rw [Nat.mod_eq_of_lt (hov i), ht]
  split <;> omega

/-- Witness for C4's amended theorem at the spec's example vectors. -/
theorem CalcExecGas_formula_witness :
    (∀ i, (![0, 0, 0] : VectorGasLimit) i +
      (![10000000, 10000000, 10000000] : VectorGasLimit) i < U64) ∧
    CalcExecGas ![10000000, 10000000, 10000000] ![0, 0, 0]
        ![20000000, 20000000, 40000000] 0 =
      specCalcExecGas ![10000000, 10000000, 10000000] ![0, 0, 0]
        ![20000000, 20000000, 40000000] 0 :=
  ⟨by decide, CalcExecGas_formula _ _ _ (by decide) 0⟩

/-- C4 counterexample: at `parentUsed = parentExcess = {2^63,0,0}` the Go
addition wraps to 0 and the code returns 0, while the claimed exact
formula gives `2^64 - 1`. -/
theorem CalcExecGas_formula_cex :
    CalcExecGas ![2 ^ 63, 0, 0] ![2 ^ 63, 0, 0] ![2, 2, 4] 0 ≠
      specCalcExecGas ![2 ^ 63, 0, 0] ![2 ^ 63, 0, 0] ![2, 2, 4] 0 := by decide

/-- C5 (confirmed): whenever the base-fee denominator
`targets(parentGasLimits)[i] * BaseFeeUpdateFraction` is zero,
`CalcBaseFees` completes (returns a full vector, never reaching the
`fakeExponential` division with a zero divisor) and that dimension's base
fee is exactly `MIN_PRICE = 1`. -/
theorem CalcBaseFees_zero_target (e l : VectorGasLimit) (i : Fin 3)
    (h : (getBlockTargets l i : ℤ) * baseFeeUpdateFraction = 0) :
    ∃ fees, CalcBaseFees e l = some fees ∧ fees i = txMinGasPrice := by
  have htz : getBlockTargets l i = 0 := by
    unfold baseFeeUpdateFraction at h
    omega
  obtain ⟨a, ha⟩ := calcBaseFeeDim_isSome (e 0) (getBlockTargets l 0)
  obtain ⟨b, hb⟩ := calcBaseFeeDim_isSome (e 1) (getBlockTargets l 1)
  obtain ⟨c, hc⟩ := calcBaseFeeDim_isSome (e 2) (getBlockTargets l 2)
  have hix : calcBaseFeeDim (e i) (getBlockTargets l i) = some txMinGasPrice := by
    rw [htz, calcBaseFeeDim_zero]
  refine ⟨![a, b, c], ?_, ?_⟩
  · unfold CalcBaseFees
    rw [ha, hb, hc]
  · fin_cases i <;> simp_all

/-- Witness for C5 at `parentGasLimits = {0,0,0}` (zero targets in every
dimension). -/
theorem CalcBaseFees_zero_target_witness :
    ((getBlockTargets ![0, 0, 0] 0 : ℤ) * baseFeeUpdateFraction = 0) ∧
    ∃ fees, CalcBaseFees ![0, 0, 0] ![0, 0, 0] = some fees ∧ fees 0 = txMinGasPrice :=
  ⟨by decide, CalcBaseFees_zero_target ![0, 0, 0] ![0, 0, 0] 0 (by decide)⟩

/-- C6 (corrected): `CalcExecGas` is monotonically non-decreasing in
`parentUsed` provided `parentExcess[i] + parentUsed'[i]` does not overflow
`uint64` (the claim's unrestricted version fails at the wraparound, see the
counterexample), and at `parentUsed = parentExcess = {0,0,0}` the result is
`{0,0,0}` for every `parentLimits`. -/
theorem CalcExecGas_monotone_and_zero :
    (∀ u u' e l : VectorGasLimit, (∀ i, u i ≤ u' i) → (∀ i, e i + u' i < U64) →
      ∀ i, CalcExecGas u e l i ≤ CalcExecGas u' e l i) ∧
    (∀ l : VectorGasLimit, ∀ i, CalcExecGas (fun _ => 0) (fun _ => 0) l i = 0) := by
  constructor
  · intro u u' e l hle hov i
    unfold CalcExecGas vectorSubClampU64 vectorAddU64
    have h1 : e i + u i < U64 := lt_of_le_of_lt (by have := hle i; omega) (hov i)
    rw [Nat.mod_eq_of_lt h1, Nat.mod_eq_of_lt (hov i)]
    have := hle i
    split <;> split <;> omega
  · intro l i
    unfold CalcExecGas vectorSubClampU64 vectorAddU64
    simp

/-- Witness for C6's amended theorem at concrete vectors. -/
theorem CalcExecGas_monotone_and_zero_witness :
    CalcExecGas ![1, 2, 3] ![4, 5, 6] ![10, 10, 10] 0 ≤
      CalcExecGas ![2, 3, 4] ![4, 5, 6] ![10, 10, 10] 0 ∧
    CalcExecGas (fun _ => 0) (fun _ => 0) ![7, 8, 9] 1 = 0 :=
  ⟨CalcExecGas_monotone_and_zero.1 _ _ _ _ (by decide) (by decide) 0,
   CalcExecGas_monotone_and_zero.2 ![7, 8, 9] 1⟩

/-- C6 counterexample: with `parentExcess = {2^63,0,0}`, increasing
`parentUsed` from `{2^63-1,0,0}` to `{2^63,0,0}` makes the wrapped sum drop
from `2^64 - 1` to `0`, so the computed excess gas strictly decreases. -/
theorem CalcExecGas_monotone_cex :
    (∀ i, (![2 ^ 63 - 1, 0, 0] : VectorGasLimit) i ≤
      (![2 ^ 63, 0, 0] : VectorGasLimit) i) ∧
    ¬ (CalcExecGas ![2 ^ 63 - 1, 0, 0] ![2 ^ 63, 0, 0] ![0, 0, 0] 0 ≤
       CalcExecGas ![2 ^ 63, 0, 0] ![2 ^ 63, 0, 0] ![0, 0, 0] 0) := by decide

/-- `fakeExponential(f, 0, d)` with positive factor and denominator runs the
loop exactly once and returns the factor (the spec's minimum-fee case). -/
theorem fakeExponential_zero_num (f d : ℤ) (hf : 0 < f) (hd : 0 < d) :
    fakeExponential f 0 d = some f := by
  have h1 : fexpLoop 0 d 0 (f * d) 1 = f * d := by
    rw [fexpLoop, dif_pos ⟨mul_pos hf hd, hd, one_pos⟩, fexpLoop]
    norm_num
  unfold fakeExponential
  rw [if_neg (ne_of_gt hd), h1, Int.mul_ediv_cancel _ (ne_of_gt hd)]

/-- A dimension with zero parent excess and a positive in-range target gets
base fee exactly 1. -/
theorem calcBaseFeeDim_no_excess (t : ℕ) (h0 : 0 < t) (h1 : t < 2 ^ 63) :
    calcBaseFeeDim 0 t = some 1 := by
  unfold calcBaseFeeDim
  have htoi : toInt64 t = (t : ℤ) := by unfold toInt64; rw [if_pos h1]
  have hpos : 0 < toInt64 t * baseFeeUpdateFraction := by
    rw [htoi]; unfold baseFeeUpdateFraction; positivity
  have htoi0 : toInt64 0 = 0 := by decide
  rw [if_neg (ne_of_gt hpos), htoi0,
    fakeExponential_zero_num txMinGasPrice _ (by decide) hpos]
  rfl

/-- Base fees recomputed from `c1Parent`'s sanitized vectors: every
dimension has usage equal to target and zero excess, so all fees are 1. -/
theorem c1CalcBaseFees_eval :
    CalcBaseFees ![0, 0, 0] ![20000000, 20000000, 40000000] = some ![1, 1, 1] := by
  unfold CalcBaseFees
  have ht : ∀ i : Fin 3, getBlockTargets ![20000000, 20000000, 40000000] i = 10000000 := by
    decide
  rw [ht 0, ht 1, ht 2]
  show (match calcBaseFeeDim (![0, 0, 0] 0) 10000000, calcBaseFeeDim (![0, 0, 0] 1) 10000000,
      calcBaseFeeDim (![0, 0, 0] 2) 10000000 with
    | some a, some b, some c => some ![a, b, c]
    | _, _, _ => none) = some ![1, 1, 1]
  have he : ∀ i : Fin 3, (![0, 0, 0] : VectorGasLimit) i = 0 := by decide
  rw [he 0, he 1, he 2, calcBaseFeeDim_no_excess 10000000 (by norm_num) (by norm_num)]

/-- `VectorGasLimit.VectorAllEq` decides extensional equality. -/
theorem vectorAllEqU64_iff (v w : VectorGasLimit) : vectorAllEqU64 v w = true ↔ v = w := by
  unfold vectorAllEqU64
  rw [List.all_eq_true]
  constructor
  · intro h
    funext i
    exact beq_iff_eq.mp (h i (List.mem_finRange i))
  · intro h i _
    rw [h]
    exact beq_self_eq_true _

/-- C1 (corrected): for a child whose three vector fields are present,
which passes the blob- and calldata-dimension bound checks, whose parent
sanitizes (is vector-active or has both legacy blob pointers non-nil), and
whose optional `BaseFees` cache is absent or matches the recomputation,
`VerifyEIP7706Header` accepts iff the child's `ExcessGas` equals
`CalcExecGas` of the sanitized parent triple, and rejects with the
ExcessMismatch-class error iff it differs. The claim's unrestricted "error
iff excess mismatch" fails when a present `BaseFees` cache is wrong (see
the counterexample). -/
theorem VerifyEIP7706Header_excess_iff (parent header : CHeader)
    (hE hU hL pU pE pL : VectorGasLimit)
    (hhe : header.excessGas = some hE)
    (hhu : header.gasUsedVector = some hU)
    (hhl : header.gasLimits = some hL)
    (hblob1 : hU 1 ≤ maxBlobGasPerBlock)
    (hblob2 : hU 1 % blobTxBlobGasPerBlob = 0)
    (hcd : hU 2 % calldataGasPerToken = 0)
    (hsan : sanitizeParent parent = some (pU, pE, pL))
    (hbf : header.baseFees = none ∨
      ∃ bf ebf, header.baseFees = some bf ∧ CalcBaseFees pE pL = some ebf ∧
        vectorAllEqFee bf (fun i => some (ebf i)) = true) :
    (VerifyEIP7706Header parent header = .ok ↔ hE = CalcExecGas pU pE pL) ∧
    (VerifyEIP7706Header parent header = .errInvalidExcessGas ↔
      hE ≠ CalcExecGas pU pE pL) := by
  unfold VerifyEIP7706Header
  rw [hhe, hhu, hhl, hsan]
  dsimp only
  rw [if_neg (by omega : ¬ maxBlobGasPerBlock < hU 1)]
  rw [if_neg (not_not_intro hblob2), if_neg (not_not_intro hcd)]
  by_cases heq : hE = CalcExecGas pU pE pL
  · have ht : vectorAllEqU64 hE (CalcExecGas pU pE pL) = true :=
      (vectorAllEqU64_iff _ _).mpr heq
    rw [ht]
    rcases hbf with hnone | ⟨bf, ebf, hbf1, hbf2, hbf3⟩
    · rw [hnone]
      simp [heq]
    · rw [hbf1, hbf2]
      dsimp only
      rw [hbf3]
      simp [heq]
  · have ht : vectorAllEqU64 hE (CalcExecGas pU pE pL) = false :=
      Bool.not_eq_true _ |>.mp ((vectorAllEqU64_iff _ _).not.mpr heq)
    rw [ht]
    simp [heq]

/-- Witness for C1's amended theorem at the spec's example: the child
claiming excess `{0,0,0}` is accepted, the child claiming `{1,0,0}` is
rejected with the ExcessMismatch-class error. -/
theorem VerifyEIP7706Header_excess_iff_witness :
    VerifyEIP7706Header c1Parent c1ChildGood = .ok ∧
    VerifyEIP7706Header c1Parent c1ChildBadExcess = .errInvalidExcessGas :=
  ⟨((VerifyEIP7706Header_excess_iff c1Parent c1ChildGood
      ![0, 0, 0] ![0, 0, 0] ![20000000, 20000000, 40000000]
      ![10000000, 10000000, 10000000] ![0, 0, 0] ![20000000, 20000000, 40000000]
      rfl rfl rfl (by decide) (by decide) (by decide) (by decide) (Or.inl rfl)).1).mpr
      (by decide),
   ((VerifyEIP7706Header_excess_iff c1Parent c1ChildBadExcess
      ![1, 0, 0] ![0, 0, 0] ![20000000, 20000000, 40000000]
      ![10000000, 10000000, 10000000] ![0, 0, 0] ![20000000, 20000000, 40000000]
      rfl rfl rfl (by decide) (by decide) (by decide) (by decide) (Or.inl rfl)).2).mpr
      (by decide)⟩

/-- C1 counterexample: a child whose `ExcessGas` equals the recomputed
value is still rejected (with the base-fee error) because its optional
`BaseFees` cache is present and wrong — refuting "returns an error if and
only if the child's `ExcessGas` is not elementwise equal to `CalcExecGas`". -/
theorem VerifyEIP7706Header_excess_cex :
    VerifyEIP7706Header c1Parent c1ChildBadBaseFees = .errInvalidBaseFee ∧
    c1ChildBadBaseFees.excessGas = some (CalcExecGas ![10000000, 10000000, 10000000]
      ![0, 0, 0] ![20000000, 20000000, 40000000]) := by
  constructor
  · unfold VerifyEIP7706Header c1Parent c1ChildBadBaseFees sanitizeParent
    simp only []
    rw [if_neg (by decide), if_neg (by decide), if_neg (by decide)]
    rw [if_neg (by decide)]
    rw [c1CalcBaseFees_eval]
    decide
  · have h : CalcExecGas ![10000000, 10000000, 10000000] ![0, 0, 0]
        ![20000000, 20000000, 40000000] = ![0, 0, 0] := by decide
    rw [h]
    rfl

/-- C7 (code bug): evaluation of the buy-then-refund round trip at a
transaction with blob/calldata limits zero, execution limit 100,
effective execution price 2, and 60 gas actually consumed. The buy step
debits 200; the refund step credits 0, because `vectorGasUsed` has already
written the consumed gas into index 0 of the slice shared with
`msg.GasLimits` before `vectorGasRemaining` subtracts, so the remaining
vector is identically zero. Debit minus credit is 200, not
`effectivePrice[Execution] * gasUsed = 120` as the claim (and the source's
own comment "only the first term will be nonzero" in `vectorGasRemaining`)
requires. -/
theorem buyRefund_roundtrip_eval :
    (buyGasEIP7706 c7Msg 1000 1000).toOption.map (fun r => r.1) = some 200 ∧
    (refundGasToAddressEIP7706 ⟨c7Msg, 100, 40⟩).toOption.map (fun r => r.2) = some 0 ∧
    (200 : ℤ) - 0 ≠ (c7Msg.effectiveGasPrices 0).getD 0 * ((100 : ℤ) - 40) := by
  refine ⟨by decide, by decide, by decide⟩

/-- C10 (code bug): evaluation of the refund-then-pay-tip sequence at the
same transaction shape. `msg.GasLimits` starts as `{100,0,0}` but, because
`gasUsed := st.msg.GasLimits` copies only the slice header, the write
`gasUsed[0] = st.gasUsed()` is visible through the message: afterwards
`msg.GasLimits[0] = 60 ≠ 100`, refuting "without modifying the message". -/
theorem vectorGasUsed_mutates_msg_eval :
    c10Msg.gasLimits 0 = 100 ∧
    c10LimitsAfter.map (fun v => v 0) = some 60 ∧
    c10LimitsAfter.map (fun v => v 0) ≠ some (c10Msg.gasLimits 0) := by
  refine ⟨by decide, by decide, by decide⟩

/-- `ContainsNilElement` holds exactly when some position is nil. -/
theorem containsNilElement_iff (v : VectorFeeBigint) :
    containsNilElement v = true ↔ ∃ i, v i = none := by
  unfold containsNilElement
  rw [List.any_eq_true]
  constructor
  · rintro ⟨i, _, hi⟩
    exact ⟨i, Option.isNone_iff_eq_none.mp hi⟩
  · rintro ⟨i, hi⟩
    exact ⟨i, List.mem_finRange i, by simp [hi]⟩

/-- C9 (corrected): `VectorAllEq` treats a both-nil position as equal and a
position with exactly one nil as unequal — it decides pointwise `Option`
equality; but `VectorAllLessOrEqual` returns false whenever either vector
contains any nil element, so a both-nil position does NOT satisfy
less-or-equal: it holds exactly when both vectors are fully present and
elementwise ≤. The claim's "both absent therefore satisfies less-or-equal"
fails (see the counterexample). -/
theorem vectorCompare_nil_semantics :
    (∀ v w : VectorFeeBigint, vectorAllEqFee v w = true ↔ ∀ i, v i = w i) ∧
    (∀ v w : VectorFeeBigint, vectorAllLessOrEqual v w = true ↔
      ((∀ i, (v i).isSome = true ∧ (w i).isSome = true) ∧
       ∀ i, (v i).getD 0 ≤ (w i).getD 0)) := by
  constructor
  · intro v w
    unfold vectorAllEqFee
    rw [List.all_eq_true]
    constructor
    · intro h i
      have hi := h i (List.mem_finRange i)
      cases hv : v i <;> cases hw : w i <;> rw [hv, hw] at hi <;> simp_all
    · intro h i _
      rw [h i]
      cases w i <;> simp
  · intro v w
    by_cases hn : (containsNilElement v || containsNilElement w) = true
    · unfold vectorAllLessOrEqual
      rw [if_pos hn]
      constructor
      · intro hfalse
        exact absurd hfalse (by simp)
      · rintro ⟨hall, _⟩
        exfalso
        rcases Bool.or_eq_true _ _ |>.mp hn with hcv | hcw
        · obtain ⟨i, hi⟩ := (containsNilElement_iff v).mp hcv
          have h2 := (hall i).1
          rw [hi] at h2
          simp at h2
        · obtain ⟨i, hi⟩ := (containsNilElement_iff w).mp hcw
          have h2 := (hall i).2
          rw [hi] at h2
          simp at h2
    · have hn' := Bool.or_eq_false_iff.mp (Bool.not_eq_true _ |>.mp hn)
      have hsome : ∀ i, (v i).isSome = true ∧ (w i).isSome = true := by
        intro i
        constructor
        · cases hv : v i with
          | none => exact absurd ((containsNilElement_iff v).mpr ⟨i, hv⟩) (by simp [hn'.1])
          | some x => simp
        · cases hw : w i with
          | none => exact absurd ((containsNilElement_iff w).mpr ⟨i, hw⟩) (by simp [hn'.2])
          | some x => simp
      unfold vectorAllLessOrEqual
      rw [if_neg hn, List.all_eq_true]
      constructor
      · intro h
        refine ⟨hsome, fun i => ?_⟩
        simpa using h i (List.mem_finRange i)
      · rintro ⟨_, hle⟩ i _
        simpa using hle i

/-- C9 counterexample: the all-nil vector is `VectorAllEq` to itself but is
not `VectorAllLessOrEqual` itself, refuting "treated as equal — and
therefore as satisfying less-or-equal". -/
theorem vectorCompare_nil_cex :
    vectorAllEqFee (fun _ => none) (fun _ => none) = true ∧
    vectorAllLessOrEqual (fun _ => none) (fun _ => none) = false := by decide

/-- Witness for C9's amended theorem: pairwise both-nil-or-equal vectors
satisfy `VectorAllEq`; fully-present elementwise-≤ vectors satisfy
`VectorAllLessOrEqual`. -/
theorem vectorCompare_nil_semantics_witness :
    vectorAllEqFee ![some 1, none, some 3] ![some 1, none, some 3] = true ∧
    vectorAllLessOrEqual ![some 1, some 2, some 3] ![some 2, some 2, some 4] = true :=
  ⟨(vectorCompare_nil_semantics.1 _ _).mpr (by decide),
   (vectorCompare_nil_semantics.2 _ _).mpr (by decide)⟩

/-- `VecBitLenAllLessEqThan256` holds exactly when every present element
has absolute value below 2^256. -/
theorem vecBitLen256_true_iff (v : VectorFeeBigint) :
    vecBitLenAllLessEqThan256 v = true ↔ ∀ i x, v i = some x → x.natAbs < 2 ^ 256 := by
  unfold vecBitLenAllLessEqThan256
  rw [List.all_eq_true]
  constructor
  · intro h i x hx
    have hi := h i (List.mem_finRange i)
    rw [hx] at hi
    simpa using hi
  · intro h i _
    cases hv : v i with
    | none => simp
    | some x => simpa using h i x hv

/-- A failing bit-length check exhibits an element of bit length > 256. -/
theorem vecBitLen256_false_exists (v : VectorFeeBigint)
    (h : ¬ vecBitLenAllLessEqThan256 v = true) :
    ∃ i x, v i = some x ∧ 2 ^ 256 ≤ x.natAbs := by
  by_contra hno
  push_neg at hno
  exact h ((vecBitLen256_true_iff v).mpr (fun i x hx => by have := hno i x hx; omega))

/-- C8 (confirmed): whenever the pre-check is not skipped,
`preCheckGasEIP7706` returns exactly the first violated check's tagged
error — fee-cap element of bit length > 256, then tip-cap element of bit
length > 256, then tip-cap not `VectorAllLessOrEqual` fee-cap, then
base-fee not `VectorAllLessOrEqual` fee-cap — and no error when all four
checks pass. -/
theorem preCheckGas_first_violation (noBaseFee : Bool) (msg : GasMsg)
    (baseFees : VectorFeeBigint)
    (hskip : ¬ (noBaseFee = true ∧ vecBitLenAllZero msg.gasFeeCaps = true ∧
      vecBitLenAllZero msg.gasTipCaps = true)) :
    preCheckGasEIP7706 noBaseFee msg baseFees = specPreCheckViolation msg baseFees := by
  unfold preCheckGasEIP7706 specPreCheckViolation
  have h0 : (noBaseFee && vecBitLenAllZero msg.gasFeeCaps &&
      vecBitLenAllZero msg.gasTipCaps) = false := by
    by_contra hb
    rw [Bool.not_eq_false, Bool.and_eq_true, Bool.and_eq_true] at hb
    exact hskip ⟨hb.1.1, hb.1.2, hb.2⟩
  rw [h0]
  simp only [Bool.false_eq_true, if_false]
  by_cases h1 : vecBitLenAllLessEqThan256 msg.gasFeeCaps = true
  · have hnex1 : ¬ ∃ i x, msg.gasFeeCaps i = some x ∧ 2 ^ 256 ≤ x.natAbs := by
      rintro ⟨i, x, hx, hge⟩
      exact absurd hge (not_le.mpr ((vecBitLen256_true_iff _).mp h1 i x hx))
    rw [h1, if_neg hnex1]
    simp only [Bool.not_true, Bool.false_eq_true, if_false]
    by_cases h2 : vecBitLenAllLessEqThan256 msg.gasTipCaps = true
    · have hnex2 : ¬ ∃ i x, msg.gasTipCaps i = some x ∧ 2 ^ 256 ≤ x.natAbs := by
        rintro ⟨i, x, hx, hge⟩
        exact absurd hge (not_le.mpr ((vecBitLen256_true_iff _).mp h2 i x hx))
      rw [h2, if_neg hnex2]
      simp only [Bool.not_true, Bool.false_eq_true, if_false]
      by_cases h3 : vectorAllLessOrEqual msg.gasTipCaps msg.gasFeeCaps = true
      · rw [if_neg (show ¬ (!vectorAllLessOrEqual msg.gasTipCaps msg.gasFeeCaps) = true by
              simp [h3]),
            if_neg (not_not_intro h3)]
        by_cases h4 : vectorAllLessOrEqual baseFees msg.gasFeeCaps = true
        · rw [if_neg (show ¬ (!vectorAllLessOrEqual baseFees msg.gasFeeCaps) = true by
                simp [h4]),
              if_neg (not_not_intro h4)]
        · rw [if_pos (show (!vectorAllLessOrEqual baseFees msg.gasFeeCaps) = true by
                simp [Bool.not_eq_true _ |>.mp h4]),
              if_pos h4]
      · rw [if_pos (show (!vectorAllLessOrEqual msg.gasTipCaps msg.gasFeeCaps) = true by
              simp [Bool.not_eq_true _ |>.mp h3]),
            if_pos h3]
    · rw [Bool.not_eq_true _ |>.mp h2]
      rw [if_pos (show (!false) = true from rfl), if_pos (vecBitLen256_false_exists _ h2)]
  · rw [Bool.not_eq_true _ |>.mp h1]
    rw [if_pos (show (!false) = true from rfl), if_pos (vecBitLen256_false_exists _ h1)]

/-- Witness for C8 at a concrete non-skipped message where all four checks
pass on one side. -/
theorem preCheckGas_first_violation_witness :
    ¬ ((false : Bool) = true ∧ vecBitLenAllZero c7Msg.gasFeeCaps = true ∧
      vecBitLenAllZero c7Msg.gasTipCaps = true) ∧
    preCheckGasEIP7706 false c7Msg ![some 1, some 1, some 1] =
      specPreCheckViolation c7Msg ![some 1, some 1, some 1] :=
  ⟨by decide, preCheckGas_first_violation false c7Msg ![some 1, some 1, some 1] (by decide)⟩

theorem takeFixed_rawStr (k : ℕ) (s : List ℕ) (rest : List RLPItem)
    (hs : s.length = k) : takeFixed k (.rawStr s :: rest) = .ok (s, rest) := by
  simp [takeFixed, hs]

theorem takeBigInt_intStr (n : ℕ) (rest : List RLPItem) :
    takeBigInt (.intStr n :: rest) = .ok (n, rest) := rfl

theorem takeU64Req_intStr (n : ℕ) (rest : List RLPItem) (hn : n < U64) :
    takeU64Req (.intStr n :: rest) = .ok (n, rest) := by
  simp [takeU64Req, takeU64, hn]

theorem takeU64_longStr (s : List ℕ) (rest : List RLPItem) (hs : 8 < s.length) :
    takeU64 (.rawStr s :: rest) = .failKeep := by
  simp [takeU64, hs]

theorem takeBytesAny_rawStr (s : List ℕ) (rest : List RLPItem) :
    takeBytesAny (.rawStr s :: rest) = .ok (s, rest) := rfl

theorem decodeU64Elems_map (xs : List ℕ) (hx : ∀ x ∈ xs, x < U64) :
    decodeU64Elems (xs.map .intStr) = some xs := by
  induction xs with
  | nil => rfl
  | cons a as ih =>
    have ha : a < U64 := hx a (by simp)
    have ih2 := ih (fun x hxx => hx x (by simp [hxx]))
    simp [decodeU64Elems, u64Elem, ha, ih2]

theorem takeU64Vector_map (xs : List ℕ) (rest : List RLPItem)
    (hx : ∀ x ∈ xs, x < U64) :
    takeU64Vector (.list (xs.map .intStr) :: rest) = .ok (xs, rest) := by
  simp [takeU64Vector, decodeU64Elems_map xs hx]

/-- C2 (amended): for every well-formed vector-active header — the three gas
vectors nonempty with uint64 elements, `Extra` longer than 8 bytes,
`WithdrawalsHash`, `ParentBeaconRoot` and `RequestsHash` present as 32-byte
values, `Difficulty` and `Number` present and nonnegative, and the legacy
optional scalars and `BaseFees` nil — encoding with `EncodeRLP` and decoding
with `DecodeRLP` returns the original header except that the legacy scalars
`GasLimit` and `GasUsed` come back zero. -/
theorem encode_decode_vector_roundtrip (h : RLPHeader) (hw : WFVectorHeader h) :
    roundTripRLP h = some { h with gasLimit := 0, gasUsed := 0 } := by
  obtain ⟨h1, h2, h3, h4, h5, h6, h7, h8, h9, hd, hd0, hn, hn0, ht, hex,
    hgl, hglb, hgu, hgub, heg, hegb, hwh, hwh32, hpb, hpb32, hrq, hrq32,
    hobf, hobg, hoeb, hbf⟩ := hw
  obtain ⟨d, hdeq⟩ := Option.isSome_iff_exists.mp hd
  obtain ⟨n, hneq⟩ := Option.isSome_iff_exists.mp hn
  obtain ⟨wh, hwheq⟩ := Option.isSome_iff_exists.mp hwh
  obtain ⟨pb, hpbeq⟩ := Option.isSome_iff_exists.mp hpb
  obtain ⟨rq, hrqeq⟩ := Option.isSome_iff_exists.mp hrq
  have hd0' : 0 ≤ d := by rw [hdeq] at hd0; simpa using hd0
  have hn0' : 0 ≤ n := by rw [hneq] at hn0; simpa using hn0
  have hwh32' : wh.length = 32 := by rw [hwheq] at hwh32; simpa using hwh32
  have hpb32' : pb.length = 32 := by rw [hpbeq] at hpb32; simpa using hpb32
  have hrq32' : rq.length = 32 := by rw [hrqeq] at hrq32; simpa using hrq32
  have henc : EncodeRLP h = .ok (.list
      [RLPItem.rawStr h.parentHash, .rawStr h.uncleHash, .rawStr h.coinbase,
       .rawStr h.root, .rawStr h.txHash, .rawStr h.receiptHash, .rawStr h.bloom,
       .intStr d.toNat, .intStr n.toNat,
       .intStr h.time, .rawStr h.extra, .rawStr h.mixDigest, .rawStr h.nonce,
       .rawStr wh, .rawStr pb, .rawStr rq,
       .list (h.gasLimits.map .intStr), .list (h.gasUsedVector.map .intStr),
       .list (h.excessGas.map .intStr)]) := by
    unfold EncodeRLP encodeEIP7706Tail
    rw [hdeq, hneq, hwheq, hpbeq, hrqeq]
    simp [encodeBigIntOrEmpty, encodeHashOrEmpty, encodeUint64Vector,
      not_lt.mpr hd0', not_lt.mpr hn0', hgl, hgu, heg]
    rfl
  unfold roundTripRLP
  rw [henc]
  have hdec : DecodeRLP (.list
      [RLPItem.rawStr h.parentHash, .rawStr h.uncleHash, .rawStr h.coinbase,
       .rawStr h.root, .rawStr h.txHash, .rawStr h.receiptHash, .rawStr h.bloom,
       .intStr d.toNat, .intStr n.toNat,
       .intStr h.time, .rawStr h.extra, .rawStr h.mixDigest, .rawStr h.nonce,
       .rawStr wh, .rawStr pb, .rawStr rq,
       .list (h.gasLimits.map .intStr), .list (h.gasUsedVector.map .intStr),
       .list (h.excessGas.map .intStr)]) = .ok { h with gasLimit := 0, gasUsed := 0 } := by
    simp only [DecodeRLP, bind, Except.bind,
      takeFixed_rawStr 32 _ _ h1, takeFixed_rawStr 32 _ _ h2,
      takeFixed_rawStr 20 _ _ h3, takeFixed_rawStr 32 _ _ h4,
      takeFixed_rawStr 32 _ _ h5, takeFixed_rawStr 32 _ _ h6,
      takeFixed_rawStr 256 _ _ h7, takeBigInt_intStr,
      takeU64Req_intStr _ _ ht, takeU64_longStr _ _ hex, takeBytesAny_rawStr,
      takeFixed_rawStr 32 _ _ h8, takeFixed_rawStr 8 _ _ h9,
      decodeEIP7706, takeFixed_rawStr 32 _ _ hwh32', takeFixed_rawStr 32 _ _ hpb32',
      takeFixed_rawStr 32 _ _ hrq32',
      takeU64Vector_map _ _ hglb, takeU64Vector_map _ _ hgub,
      takeU64Vector_map _ _ hegb]
    simp [RLPHeader.mk.injEq, Int.toNat_of_nonneg hd0', Int.toNat_of_nonneg hn0',
      hdeq, hneq, hwheq, hpbeq, hrqeq, hbf, hobf, hobg, hoeb, emptyRLPHeader]
  dsimp only
  rw [hdec]

theorem takeU64Ptr_intStr (n : ℕ) (rest : List RLPItem) (hn : n < U64) :
    takeU64Ptr (.intStr n :: rest) = .ok (n, rest) := by
  simp [takeU64Ptr, takeU64, hn]

theorem decodeRLP_legacy (ph uh cb rt tx rh bl ex mx nn : List ℕ)
    (d n gl gu t : ℕ) (tail : List RLPItem)
    (h1 : ph.length = 32) (h2 : uh.length = 32) (h3 : cb.length = 20)
    (h4 : rt.length = 32) (h5 : tx.length = 32) (h6 : rh.length = 32)
    (h7 : bl.length = 256) (h8 : mx.length = 32) (h9 : nn.length = 8)
    (hgl : gl < U64) (hgu : gu < U64) (ht : t < U64) :
    DecodeRLP (.list ([.rawStr ph, .rawStr uh, .rawStr cb, .rawStr rt, .rawStr tx,
      .rawStr rh, .rawStr bl, .intStr d, .intStr n, .intStr gl, .intStr gu,
      .intStr t, .rawStr ex, .rawStr mx, .rawStr nn] ++ tail)) =
    decodePreEIP7706 { emptyRLPHeader with
      parentHash := ph, uncleHash := uh, coinbase := cb, root := rt, txHash := tx,
      receiptHash := rh, bloom := bl, difficulty := some (d : ℤ),
      number := some (n : ℤ), gasLimit := gl, gasUsed := gu, time := t,
      extra := ex, mixDigest := mx, nonce := nn } tail := by
  simp only [List.cons_append, List.nil_append, DecodeRLP, bind, Except.bind,
    takeFixed_rawStr 32 _ _ h1, takeFixed_rawStr 32 _ _ h2,
    takeFixed_rawStr 20 _ _ h3, takeFixed_rawStr 32 _ _ h4,
    takeFixed_rawStr 32 _ _ h5, takeFixed_rawStr 32 _ _ h6,
    takeFixed_rawStr 256 _ _ h7, takeBigInt_intStr,
    takeU64Req_intStr _ _ hgl,
    show takeU64 (RLPItem.intStr gu :: RLPItem.intStr t :: RLPItem.rawStr ex ::
      RLPItem.rawStr mx :: RLPItem.rawStr nn :: tail) = .ok gu (RLPItem.intStr t ::
      RLPItem.rawStr ex :: RLPItem.rawStr mx :: RLPItem.rawStr nn :: tail) from by
        simp [takeU64, hgu],
    takeU64Req_intStr _ _ ht, takeBytesAny_rawStr,
    takeFixed_rawStr 32 _ _ h8, takeFixed_rawStr 8 _ _ h9]

theorem legacy_roundtrip_core (h : RLPHeader) (tail : List RLPItem)
    (h1 : h.parentHash.length = 32) (h2 : h.uncleHash.length = 32)
    (h3 : h.coinbase.length = 20) (h4 : h.root.length = 32)
    (h5 : h.txHash.length = 32) (h6 : h.receiptHash.length = 32)
    (h7 : h.bloom.length = 256) (h8 : h.mixDigest.length = 32)
    (h9 : h.nonce.length = 8)
    (hd : h.difficulty.isSome = true) (hd0 : 0 ≤ h.difficulty.getD 0)
    (hn : h.number.isSome = true) (hn0 : 0 ≤ h.number.getD 0)
    (hgl : h.gasLimit < U64) (hgu : h.gasUsed < U64) (ht : h.time < U64)
    (hvl : h.gasLimits = []) (hvu : h.gasUsedVector = []) (hve : h.excessGas = [])
    (htail : encodePreEIP7706Tail h = .ok tail)
    (hdec : decodePreEIP7706 { emptyRLPHeader with
      parentHash := h.parentHash, uncleHash := h.uncleHash, coinbase := h.coinbase,
      root := h.root, txHash := h.txHash, receiptHash := h.receiptHash,
      bloom := h.bloom, difficulty := h.difficulty, number := h.number,
      gasLimit := h.gasLimit, gasUsed := h.gasUsed, time := h.time,
      extra := h.extra, mixDigest := h.mixDigest, nonce := h.nonce } tail = .ok h) :
    roundTripRLP h = some h := by
  obtain ⟨d, hdeq⟩ := Option.isSome_iff_exists.mp hd
  obtain ⟨n, hneq⟩ := Option.isSome_iff_exists.mp hn
  have hd0' : 0 ≤ d := by rw [hdeq] at hd0; simpa using hd0
  have hn0' : 0 ≤ n := by rw [hneq] at hn0; simpa using hn0
  have henc : EncodeRLP h = .ok (.list ([.rawStr h.parentHash, .rawStr h.uncleHash,
      .rawStr h.coinbase, .rawStr h.root, .rawStr h.txHash, .rawStr h.receiptHash,
      .rawStr h.bloom, .intStr d.toNat, .intStr n.toNat, .intStr h.gasLimit,
      .intStr h.gasUsed, .intStr h.time, .rawStr h.extra, .rawStr h.mixDigest,
      .rawStr h.nonce] ++ tail)) := by
    unfold EncodeRLP
    rw [hdeq, hneq, hvl, hvu, hve, htail]
    simp [encodeBigIntOrEmpty, not_lt.mpr hd0', not_lt.mpr hn0']
    rfl
  unfold roundTripRLP
  rw [henc]
  dsimp only
  rw [decodeRLP_legacy h.parentHash h.uncleHash h.coinbase h.root h.txHash
    h.receiptHash h.bloom h.extra h.mixDigest h.nonce d.toNat n.toNat
    h.gasLimit h.gasUsed h.time tail h1 h2 h3 h4 h5 h6 h7 h8 h9 hgl hgu ht]
  rw [show ((d.toNat : ℕ) : ℤ) = d from Int.toNat_of_nonneg hd0',
    show ((n.toNat : ℕ) : ℤ) = n from Int.toNat_of_nonneg hn0', ← hdeq, ← hneq]
  rw [hdec]

/-- C3 (amended): for every well-formed legacy header whose populated
telescoping optional suffix is prefix-contiguous (each optional field that
precedes a populated one is itself populated), encoding with `EncodeRLP` and
decoding with `DecodeRLP` returns the identical header; in particular every
optional field after the last populated one stays absent. -/
theorem encode_decode_legacy_roundtrip (h : RLPHeader) (hw : WFLegacyHeader h)
    (hc : ContiguousSuffix h) : roundTripRLP h = some h := by
  obtain ⟨pH, uH, cB, rT, tX, rC, bL, dF, nB, gL, gU, tM, eX, mD, nC, bF, wH,
    bG, eB, pB, rQ, gLs, gUs, eG, bFs⟩ := h
  obtain ⟨h1, h2, h3, h4, h5, h6, h7, h8, h9, hd, hd0, hn, hn0, hgl, hgu, ht,
    hvl, hvu, hve, hbfs, hbf0, hwh32, hbgU, hebU, hpb32, hrq32⟩ := hw
  obtain ⟨hc1, hc2, hc3, hc4, hc5⟩ := hc
  have hvl0 : gLs = [] := hvl
  have hvu0 : gUs = [] := hvu
  have hve0 : eG = [] := hve
  have hbfs0 : bFs = none := hbfs
  subst hvl0 hvu0 hve0 hbfs0
  rcases rQ with _ | rq
  · rcases pB with _ | pb
    · rcases eB with _ | eb
      · rcases bG with _ | bg
        · rcases wH with _ | wh
          · rcases bF with _ | bf
            · -- nothing populated
              refine legacy_roundtrip_core _ [] h1 h2 h3 h4 h5 h6 h7 h8 h9
                hd hd0 hn hn0 hgl hgu ht hvl hvu hve ?_ ?_
              · simp [encodePreEIP7706Tail, pure, Except.pure, bind, Except.bind]
              · simp [decodePreEIP7706, takeBigInt, RLPHeader.mk.injEq,
                  emptyRLPHeader]
            · -- only baseFee
              have hbf0' : 0 ≤ bf := by simpa using hbf0
              refine legacy_roundtrip_core _ [.intStr bf.toNat] h1 h2 h3 h4 h5 h6
                h7 h8 h9 hd hd0 hn hn0 hgl hgu ht hvl hvu hve ?_ ?_
              · simp [encodePreEIP7706Tail, encodeBigIntOrEmpty,
                  not_lt.mpr hbf0', pure, Except.pure, bind, Except.bind]
              · simp [decodePreEIP7706, takeBigInt_intStr, takeFixed,
                  RLPHeader.mk.injEq, emptyRLPHeader, hvl, hvu, hve, hbfs,
                  Int.toNat_of_nonneg hbf0']
          · -- up to withdrawalsHash
            obtain ⟨bf, rfl⟩ := Option.isSome_iff_exists.mp (hc1 rfl)
            have hbf0' : 0 ≤ bf := by simpa using hbf0
            have hwh' : wh.length = 32 := by simpa using hwh32 rfl
            refine legacy_roundtrip_core _ [.intStr bf.toNat, .rawStr wh] h1 h2
              h3 h4 h5 h6 h7 h8 h9 hd hd0 hn hn0 hgl hgu ht hvl hvu hve ?_ ?_
            · simp [encodePreEIP7706Tail, encodeBigIntOrEmpty, encodeHashOrEmpty,
                not_lt.mpr hbf0', pure, Except.pure, bind, Except.bind]
            · simp [decodePreEIP7706, takeBigInt_intStr, takeFixed_rawStr _ _ _ hwh',
                takeU64Ptr, RLPHeader.mk.injEq, emptyRLPHeader, hvl, hvu, hve,
                hbfs, Int.toNat_of_nonneg hbf0']
        · -- up to blobGasUsed
          obtain ⟨wh, rfl⟩ := Option.isSome_iff_exists.mp (hc2 rfl)
          obtain ⟨bf, rfl⟩ := Option.isSome_iff_exists.mp (hc1 rfl)
          have hbf0' : 0 ≤ bf := by simpa using hbf0
          have hwh' : wh.length = 32 := by simpa using hwh32 rfl
          have hbg' : bg < U64 := by simpa using hbgU
          refine legacy_roundtrip_core _ [.intStr bf.toNat, .rawStr wh,
            .intStr bg] h1 h2 h3 h4 h5 h6 h7 h8 h9 hd hd0 hn hn0 hgl hgu ht
            hvl hvu hve ?_ ?_
          · simp [encodePreEIP7706Tail, encodeBigIntOrEmpty, encodeHashOrEmpty,
              encodeUint64PtrOrEmpty, not_lt.mpr hbf0', pure, Except.pure, bind,
              Except.bind]
          · simp [decodePreEIP7706, takeBigInt_intStr, takeFixed_rawStr,
              takeU64Ptr_intStr, takeU64Ptr, takeU64, takeFixed, hwh', hbg',
              RLPHeader.mk.injEq, emptyRLPHeader, Int.toNat_of_nonneg hbf0']
      · -- up to excessBlobGas
        obtain ⟨bg, rfl⟩ := Option.isSome_iff_exists.mp (hc3 rfl)
        obtain ⟨wh, rfl⟩ := Option.isSome_iff_exists.mp (hc2 rfl)
        obtain ⟨bf, rfl⟩ := Option.isSome_iff_exists.mp (hc1 rfl)
        have hbf0' : 0 ≤ bf := by simpa using hbf0
        have hwh' : wh.length = 32 := by simpa using hwh32 rfl
        have hbg' : bg < U64 := by simpa using hbgU
        have heb' : eb < U64 := by simpa using hebU
        refine legacy_roundtrip_core _ [.intStr bf.toNat, .rawStr wh,
          .intStr bg, .intStr eb] h1 h2 h3 h4 h5 h6 h7 h8 h9 hd hd0 hn hn0
          hgl hgu ht hvl hvu hve ?_ ?_
        · simp [encodePreEIP7706Tail, encodeBigIntOrEmpty, encodeHashOrEmpty,
            encodeUint64PtrOrEmpty, not_lt.mpr hbf0', pure, Except.pure, bind,
            Except.bind]
        · simp [decodePreEIP7706, takeBigInt_intStr, takeFixed_rawStr,
            takeU64Ptr_intStr, takeU64Ptr, takeU64, takeFixed, hwh', hbg', heb',
            RLPHeader.mk.injEq, emptyRLPHeader, Int.toNat_of_nonneg hbf0']
    · -- up to parentBeaconRoot
      obtain ⟨eb, rfl⟩ := Option.isSome_iff_exists.mp (hc4 rfl)
      obtain ⟨bg, rfl⟩ := Option.isSome_iff_exists.mp (hc3 rfl)
      obtain ⟨wh, rfl⟩ := Option.isSome_iff_exists.mp (hc2 rfl)
      obtain ⟨bf, rfl⟩ := Option.isSome_iff_exists.mp (hc1 rfl)
      have hbf0' : 0 ≤ bf := by simpa using hbf0
      have hwh' : wh.length = 32 := by simpa using hwh32 rfl
      have hbg' : bg < U64 := by simpa using hbgU
      have heb' : eb < U64 := by simpa using hebU
      have hpb' : pb.length = 32 := by simpa using hpb32 rfl
      refine legacy_roundtrip_core _ [.intStr bf.toNat, .rawStr wh,
        .intStr bg, .intStr eb, .rawStr pb] h1 h2 h3 h4 h5 h6 h7 h8 h9
        hd hd0 hn hn0 hgl hgu ht hvl hvu hve ?_ ?_
      · simp [encodePreEIP7706Tail, encodeBigIntOrEmpty, encodeHashOrEmpty,
          encodeUint64PtrOrEmpty, not_lt.mpr hbf0', pure, Except.pure, bind,
          Except.bind]
      · simp [decodePreEIP7706, takeBigInt_intStr, takeFixed_rawStr,
          takeU64Ptr_intStr, takeU64Ptr, takeU64, takeFixed, hwh', hbg', heb',
          hpb', RLPHeader.mk.injEq, emptyRLPHeader, Int.toNat_of_nonneg hbf0']
  · -- everything populated
    obtain ⟨pb, rfl⟩ := Option.isSome_iff_exists.mp (hc5 rfl)
    obtain ⟨eb, rfl⟩ := Option.isSome_iff_exists.mp (hc4 rfl)
    obtain ⟨bg, rfl⟩ := Option.isSome_iff_exists.mp (hc3 rfl)
    obtain ⟨wh, rfl⟩ := Option.isSome_iff_exists.mp (hc2 rfl)
    obtain ⟨bf, rfl⟩ := Option.isSome_iff_exists.mp (hc1 rfl)
    have hbf0' : 0 ≤ bf := by simpa using hbf0
    have hwh' : wh.length = 32 := by simpa using hwh32 rfl
    have hbg' : bg < U64 := by simpa using hbgU
    have heb' : eb < U64 := by simpa using hebU
    have hpb' : pb.length = 32 := by simpa using hpb32 rfl
    have hrq' : rq.length = 32 := by simpa using hrq32 rfl
    refine legacy_roundtrip_core _ [.intStr bf.toNat, .rawStr wh,
      .intStr bg, .intStr eb, .rawStr pb, .rawStr rq] h1 h2 h3 h4 h5 h6 h7 h8
      h9 hd hd0 hn hn0 hgl hgu ht hvl hvu hve ?_ ?_
    · simp [encodePreEIP7706Tail, encodeBigIntOrEmpty, encodeHashOrEmpty,
        encodeUint64PtrOrEmpty, not_lt.mpr hbf0', pure, Except.pure, bind,
        Except.bind]
    · simp [decodePreEIP7706, takeBigInt_intStr, takeFixed_rawStr,
        takeU64Ptr_intStr, takeU64Ptr, takeU64, takeFixed, hwh', hbg', heb',
        hpb', hrq', RLPHeader.mk.injEq, emptyRLPHeader,
        Int.toNat_of_nonneg hbf0']

/-- Witness for C2's amended theorem at the concrete vector-active header. -/
theorem encode_decode_vector_roundtrip_witness :
    WFVectorHeader hVecConc ∧
      roundTripRLP hVecConc = some { hVecConc with gasLimit := 0, gasUsed := 0 } :=
  ⟨by unfold WFVectorHeader; decide,
   encode_decode_vector_roundtrip hVecConc (by unfold WFVectorHeader; decide)⟩

/-- C2 counterexample: a vector-active header whose `Extra` is at most 8
bytes round-trips to a decode failure — the trial uint64 read of `Extra`
succeeds, the decoder treats the layout as legacy and decoding errors out —
so the round-trip does not hold for every vector-active header. -/
theorem vector_roundtrip_cex : roundTripRLP hVecBadExtra = none := by decide

/-- Witness for C3's amended theorem at the concrete legacy header with an
empty optional suffix. -/
theorem encode_decode_legacy_roundtrip_witness :
    (WFLegacyHeader hLegConc ∧ ContiguousSuffix hLegConc) ∧
      roundTripRLP hLegConc = some hLegConc :=
  ⟨⟨by unfold WFLegacyHeader; decide, by unfold ContiguousSuffix; decide⟩,
   encode_decode_legacy_roundtrip hLegConc (by unfold WFLegacyHeader; decide)
     (by unfold ContiguousSuffix; decide)⟩

/-- C3 counterexample: a legacy header with `WithdrawalsHash` populated but
`BaseFee` nil encodes the nil `BaseFee` as the empty string, which decodes
back as the value 0: the decoded header carries `BaseFee = some 0` and is
not identical to the original, refuting the claim for gapped subsets. -/
theorem legacy_roundtrip_cex : roundTripRLP hLegGap ≠ some hLegGap := by decide
